import Mathlib

/-!
Verification development for the tableau-refresh-manager repository.

The definitions below are shallow embeddings of the TypeScript source:
  - the zod schedule schema (src/lib/schemas.ts, `scheduleConfigSchema`),
  - the XML serializer and its validator (src/lib/xml-builder.ts),
  - the shared run-hour expansion (src/lib/utils.ts, `computeRunHours`),
  - the analyzer (src/lib/analyzer.ts: `parseScheduleTime`,
    `extractScheduleDays`, `extractHourInterval`, `expandHourlyRunHours`,
    `matchesMonthlyScheduleDate`, the hourly-count accumulation of
    `analyzeScheduledTasks`),
  - the date filter (src/lib/filters.ts, `taskRunsOnDate`),
  - the batch impact simulator (src/hooks/use-batch-impact.ts), and
  - the three health-metric implementations (analyzer, batch-impact hook,
    MCP simulate tool).

JavaScript numbers are modelled as follows: machine integers that the code
produces with parseInt are `Option Int`, where `none` stands for NaN (the
code compares parse results against null, which NaN is not, so the two
must stay distinguishable); health-metric arithmetic is modelled over the
rationals, with Math.sqrt passed in as an explicit function parameter
(every implementation under comparison calls the same Math.sqrt, so every
theorem quantifies over that parameter).
-/

/-! ## JavaScript string and number primitives -/

/-- Digits prefix of a character list, as parseInt reads it: the longest
leading run of decimal digits, or none when there is no leading digit. -/
def digitsPrefixVal (l : List Char) : Option Nat :=
  let ds := l.takeWhile Char.isDigit
  if ds.isEmpty then none
  else some (ds.foldl (fun a c => a * 10 + (c.toNat - 48)) 0)

/-- Model of JavaScript parseInt(s, 10): optional sign followed by a digit
prefix; `none` models NaN. -/
def parseIntJS (s : String) : Option Int :=
  match s.data with
  | '-' :: rest => (digitsPrefixVal rest).map (fun n => -(n : Int))
  | '+' :: rest => (digitsPrefixVal rest).map (fun n => (n : Int))
  | l => (digitsPrefixVal l).map (fun n => (n : Int))

/-- Split a character list at each colon (model of String.prototype.split
with separator ":", restricted to the single character the code uses). -/
def splitColonChars : List Char → List (List Char)
  | [] => [[]]
  | c :: rest =>
    match splitColonChars rest with
    | [] => if c = ':' then [[], []] else [[c]]
    | h :: t => if c = ':' then [] :: h :: t else (c :: h) :: t

/-- Model of s.split(":") on a Lean string. -/
def splitColon (s : String) : List String :=
  (splitColonChars s.data).map String.mk

/-- Model of the zod time regex from src/lib/schemas.ts:
startTime must match HH:MM or HH:MM:SS with two digits in each group. -/
def wellFormedTimeStr (s : String) : Bool :=
  match s.data with
  | [a, b, c, d, e] => a.isDigit && b.isDigit && decide (c = ':') && d.isDigit && e.isDigit
  | [a, b, c, d, e, f, g, h] =>
      a.isDigit && b.isDigit && decide (c = ':') && d.isDigit && e.isDigit &&
        decide (f = ':') && g.isDigit && h.isDigit
  | _ => false

/-- Minute component as the serializer reads it:
startTime.split(":")[1] with "00" substituted when the index is absent. -/
def minuteStr (s : String) : String :=
  (splitColon s).getD 1 "00"

/-- JavaScript truthiness of a nullable string: null and the empty string
are falsy. -/
def strTruthy : Option String → Bool
  | none => false
  | some s => decide (s ≠ "")

/-! ## Schedule configuration model (src/lib/types.ts, ScheduleConfig) -/

inductive Frequency
  | Hourly
  | Daily
  | Weekly
  | Monthly
deriving DecidableEq, Repr

inductive Weekday
  | Sunday
  | Monday
  | Tuesday
  | Wednesday
  | Thursday
  | Friday
  | Saturday
deriving DecidableEq, Repr

inductive MonthlyOrdinal
  | First
  | Second
  | Third
  | Fourth
  | Fifth
  | Last
deriving DecidableEq, Repr

/-- A monthDays entry: a numeric day of month or the literal LastDay. -/
inductive MonthDay
  | num (n : Int)
  | lastDay
deriving DecidableEq, Repr

/-- The flat nullable schedule record of src/lib/types.ts, narrowed to
values inside the documented vocabularies: frequency and monthlyOrdinal
are genuine TypeScript literal unions, while weekDays entries and
monthlyWeekDay (string-typed in TypeScript, documented as Tableau
week-day names) are narrowed to the seven-name enumeration here.  This
narrowed view is used by the claims that quantify over documented
shapes; RawScheduleConfig below models the TypeScript record exactly as
typed, for the claim where the schema checks on raw strings and numbers
are load-bearing. -/
structure ScheduleConfig where
  frequency : Frequency
  startTime : String
  endTime : Option String
  intervalHours : Option Int
  weekDays : List Weekday
  monthDays : List MonthDay
  monthlyOrdinal : Option MonthlyOrdinal
  monthlyWeekDay : Option Weekday
deriving DecidableEq, Repr

def weekdayName : Weekday → String
  | .Sunday => "Sunday"
  | .Monday => "Monday"
  | .Tuesday => "Tuesday"
  | .Wednesday => "Wednesday"
  | .Thursday => "Thursday"
  | .Friday => "Friday"
  | .Saturday => "Saturday"

def ordinalName : MonthlyOrdinal → String
  | .First => "First"
  | .Second => "Second"
  | .Third => "Third"
  | .Fourth => "Fourth"
  | .Fifth => "Fifth"
  | .Last => "Last"

/-! ## Validator model (src/lib/schemas.ts, scheduleConfigSchema)

The zod discriminated union, branch by branch.  Fields whose zod check is
a `.default(...)` only matter for absent input; the model receives fully
populated records, so the remaining checks are the regexes, the literal
and enum constraints, the array length bounds and the two `.refine`
predicates.  Enum-typed fields (weekDays entries, monthlyOrdinal,
monthlyWeekDay, frequency) are valid by construction in this model. -/

def intervalIn (iv : Option Int) (allowed : List Int) : Bool :=
  match iv with
  | some k => decide (k ∈ allowed)
  | none => false

/-- zod endTime as the base schema declares it: nullable string matching
the time regex. -/
def endTimeNullableOk : Option String → Bool
  | none => true
  | some e => wellFormedTimeStr e

/-- Acceptance predicate of scheduleConfigSchema.safeParse: true exactly
when the zod schema accepts the record. -/
def scheduleAccepts (s : ScheduleConfig) : Bool :=
  match s.frequency with
  | .Hourly =>
    wellFormedTimeStr s.startTime &&
      decide (s.intervalHours = some 1) &&
      (match s.endTime with
       | some e => wellFormedTimeStr e
       | none => false) &&
      s.monthlyOrdinal.isNone && s.monthlyWeekDay.isNone
  | .Daily =>
    wellFormedTimeStr s.startTime &&
      endTimeNullableOk s.endTime &&
      intervalIn s.intervalHours [2, 4, 6, 8, 12, 24] &&
      s.monthlyOrdinal.isNone && s.monthlyWeekDay.isNone &&
      (match s.intervalHours with
       | some k => if k ∈ [2, 4, 6, 8, 12] then s.endTime.isSome else true
       | none => false)
  | .Weekly =>
    wellFormedTimeStr s.startTime &&
      s.endTime.isNone &&
      (decide (s.intervalHours = some 24) || s.intervalHours.isNone) &&
      decide (1 ≤ s.weekDays.length) && decide (s.weekDays.length ≤ 7) &&
      s.monthlyOrdinal.isNone && s.monthlyWeekDay.isNone
  | .Monthly =>
    wellFormedTimeStr s.startTime &&
      s.endTime.isNone &&
      (decide (s.intervalHours = some 24) || s.intervalHours.isNone) &&
      s.monthDays.all (fun d =>
        match d with
        | .num n => decide (1 ≤ n ∧ n ≤ 31)
        | .lastDay => true) &&
      Bool.xor (decide (s.monthDays.length > 0))
        (s.monthlyOrdinal.isSome && s.monthlyWeekDay.isSome)

/-! ## Serializer model (src/lib/xml-builder.ts) -/

/-- escapeXmlAttr: the four sequential global replaces collapse to a
single character map because no replacement text re-triggers a later
pattern on the characters it introduces. -/
def escapeXmlChar (c : Char) : List Char :=
  if c = '&' then "&amp;".data
  else if c = '"' then "&quot;".data
  else if c = '<' then "&lt;".data
  else if c = '>' then "&gt;".data
  else [c]

def escapeXmlAttr (s : String) : String :=
  String.mk (s.data.foldr (fun c acc => escapeXmlChar c ++ acc) [])

def joinSep (sep : String) : List String → String
  | [] => ""
  | [x] => x
  | x :: xs => x ++ sep ++ joinSep sep xs

def ALL_WEEKDAYS : List String :=
  ["Sunday", "Monday", "Tuesday", "Wednesday", "Thursday", "Friday", "Saturday"]

/-- ensureTimeFormat: append ":00" when the string splits into exactly two
colon-separated parts. -/
def ensureTimeFormat (t : String) : String :=
  if (splitColon t).length = 2 then t ++ ":00" else t

/-- Template-literal rendering of the nullable intervalHours field (the
source prints it through `intervalHours!`, which renders null or undefined
as the string "undefined"). -/
def showIntervalHours : Option Int → String
  | some k => toString k
  | none => "undefined"

def weekDayIntervalXml (day : String) : String :=
  "<interval weekDay=\"" ++ escapeXmlAttr day ++ "\" />"

def buildHourlyIntervals (intervalHours : Option Int) (weekDays : List Weekday) : String :=
  let hourInterval := "<interval hours=\"" ++ showIntervalHours intervalHours ++ "\" />"
  let effectiveDays := if weekDays.length = 0 then ALL_WEEKDAYS else weekDays.map weekdayName
  hourInterval ++ "\n      " ++ joinSep "\n      " (effectiveDays.map weekDayIntervalXml)

def buildDailyIntervals (intervalHours : Option Int) (weekDays : List Weekday) : String :=
  let hourInterval := "<interval hours=\"" ++ showIntervalHours intervalHours ++ "\" />"
  let effectiveDays := if weekDays.length = 0 then ALL_WEEKDAYS else weekDays.map weekdayName
  hourInterval ++ "\n      " ++ joinSep "\n      " (effectiveDays.map weekDayIntervalXml)

def buildWeeklyIntervals (weekDays : List Weekday) : Except String String :=
  if weekDays.length = 0 then
    .error "Weekly frequency requires at least one weekDay"
  else
    .ok (joinSep "\n      " ((weekDays.map weekdayName).map weekDayIntervalXml))

def monthDayStr : MonthDay → String
  | .num n => toString n
  | .lastDay => "LastDay"

def buildMonthlyIntervals (monthDays : List MonthDay) (monthlyOrdinal : Option MonthlyOrdinal)
    (monthlyWeekDay : Option Weekday) : Except String String :=
  let hasMonthDays := decide (monthDays.length > 0)
  let hasOrdinal := monthlyOrdinal.isSome && monthlyWeekDay.isSome
  if hasMonthDays && hasOrdinal then
    .error "Monthly frequency: monthDays and monthlyOrdinal are mutually exclusive"
  else if !hasMonthDays && !hasOrdinal then
    .error "Monthly frequency requires either monthDays or (monthlyOrdinal + monthlyWeekDay)"
  else if hasMonthDays then
    .ok (joinSep "\n      " (monthDays.map (fun day =>
      "<interval monthDay=\"" ++ escapeXmlAttr (monthDayStr day) ++ "\" />")))
  else
    match monthlyOrdinal, monthlyWeekDay with
    | some o, some w =>
      .ok ("<interval monthDay=\"" ++ escapeXmlAttr (ordinalName o) ++ "\" weekDay=\"" ++
        escapeXmlAttr (weekdayName w) ++ "\" />")
    | _, _ => .error "unreachable"

def wrapXml (frequency start : String) (endO : Option String) (intervals : String) : String :=
  let endAttr :=
    match endO with
    | some e => if e = "" then "" else " end=\"" ++ escapeXmlAttr e ++ "\""
    | none => ""
  "<tsRequest>\n  <schedule frequency=\"" ++ escapeXmlAttr frequency ++
    "\">\n    <frequencyDetails start=\"" ++ escapeXmlAttr start ++ "\"" ++ endAttr ++
    ">\n      <intervals>\n        " ++ intervals ++
    "\n      </intervals>\n    </frequencyDetails>\n  </schedule>\n</tsRequest>"

/-- validateMinuteAlignment throws exactly when the minute components
differ. -/
def minuteAlignmentOk (st et : String) : Bool :=
  decide (minuteStr st = minuteStr et)

/-- validateSchedule from src/lib/xml-builder.ts: some message models a
throw, none models a successful validation.  The ordinal and week-day
name membership checks of the Monthly branch always pass here because the
corresponding fields are enumeration-typed in the model. -/
def validateSchedule (s : ScheduleConfig) : Option String :=
  if s.startTime = "" then some "startTime is required"
  else
    match s.frequency with
    | .Hourly =>
      if s.intervalHours ≠ some 1 then some "Hourly frequency requires intervalHours === 1"
      else if !strTruthy s.endTime then some "Hourly frequency requires endTime"
      else if !minuteAlignmentOk s.startTime (s.endTime.getD "") then
        some "startTime and endTime must have matching minutes"
      else none
    | .Daily =>
      if !intervalIn s.intervalHours [2, 4, 6, 8, 12, 24] then
        some "Daily frequency requires intervalHours in [2, 4, 6, 8, 12, 24]"
      else if intervalIn s.intervalHours [2, 4, 6, 8, 12] && !strTruthy s.endTime then
        some "Daily frequency with a sub-day interval requires endTime"
      else if strTruthy s.endTime && !minuteAlignmentOk s.startTime (s.endTime.getD "") then
        some "startTime and endTime must have matching minutes"
      else none
    | .Weekly =>
      if s.weekDays.length = 0 then some "Weekly frequency requires at least one weekDay"
      else if s.weekDays.length > 7 then some "Weekly frequency cannot have more than 7 weekDays"
      else none
    | .Monthly =>
      let hasMonthDays := decide (s.monthDays.length > 0)
      let hasOrdinal := s.monthlyOrdinal.isSome && s.monthlyWeekDay.isSome
      if hasMonthDays && hasOrdinal then
        some "Monthly: monthDays and monthlyOrdinal are mutually exclusive"
      else if !hasMonthDays && !hasOrdinal then
        some "Monthly requires either monthDays or (monthlyOrdinal + monthlyWeekDay)"
      else if hasMonthDays && s.monthDays.any (fun d =>
          match d with
          | .num n => decide (n < 1 ∨ n > 31)
          | .lastDay => false) then
        some "Invalid monthDay value"
      else none

/-- buildScheduleXml: validate, then render the wire document.  A thrown
error is an .error value. -/
def buildScheduleXml (s : ScheduleConfig) : Except String String :=
  match validateSchedule s with
  | some e => .error e
  | none =>
    let startTimeFull := ensureTimeFormat s.startTime
    let endTimeFull : Option String :=
      match s.endTime with
      | some e => if e = "" then none else some (ensureTimeFormat e)
      | none => none
    match s.frequency with
    | .Hourly =>
      .ok (wrapXml "Hourly" startTimeFull endTimeFull
        (buildHourlyIntervals s.intervalHours s.weekDays))
    | .Daily =>
      .ok (wrapXml "Daily" startTimeFull endTimeFull
        (buildDailyIntervals s.intervalHours s.weekDays))
    | .Weekly =>
      match buildWeeklyIntervals s.weekDays with
      | .error e => .error e
      | .ok iv => .ok (wrapXml "Weekly" startTimeFull none iv)
    | .Monthly =>
      match buildMonthlyIntervals s.monthDays s.monthlyOrdinal s.monthlyWeekDay with
      | .error e => .error e
      | .ok iv => .ok (wrapXml "Monthly" startTimeFull none iv)

/-- True when buildScheduleXml returns a document rather than throwing. -/
def serializerOk (s : ScheduleConfig) : Bool :=
  match buildScheduleXml s with
  | .ok _ => true
  | .error _ => false

/-! ## Shared run-hour expansion (src/lib/utils.ts, computeRunHours)

The JavaScript for-loops walk an Int counter upward by a positive step.
For a non-positive step the source loop would not terminate; the model
returns the iterations collected so far (no claim exercises that case).
A parse failure (NaN) is `none`; a NaN loop bound makes every comparison
false, which the case splits below reproduce. -/

/-- parseTime(t).hour from src/lib/utils.ts. -/
def parseTimeHour (t : String) : Option Int :=
  parseIntJS ((splitColon t).getD 0 "")

/-- for (h = cur; h <= bound; h += step) collecting h. -/
def stepWhileLe (bound step : Int) (cur : Int) : List Int :=
  if _h : cur ≤ bound ∧ 0 < step then
    cur :: stepWhileLe bound step (cur + step)
  else []
termination_by (bound + step - cur).toNat
decreasing_by
  simp_wf
  omega

/-- for (h = cur; h < bound; h += step) collecting h. -/
def stepWhileLt (bound step : Int) (cur : Int) : List Int :=
  if _h : cur < bound ∧ 0 < step then
    cur :: stepWhileLt bound step (cur + step)
  else []
termination_by (bound + step - cur).toNat
decreasing_by
  simp_wf
  omega

/-- The Hourly branch of computeRunHours (interval of one hour), with the
four NaN patterns of the two nested loops spelled out. -/
def hourlyWindowHours (sh eh : Option Int) : List Int :=
  match sh, eh with
  | some a, some b =>
    if a ≤ b then stepWhileLe b 1 a
    else stepWhileLt 24 1 a ++ stepWhileLe b 1 0
  | some a, none => stepWhileLt 24 1 a
  | none, some b => stepWhileLe b 1 0
  | none, none => []

/-- The Daily sub-day branch of computeRunHours, stepping by
intervalHours. -/
def dailyWindowHours (sh eh : Option Int) (step : Int) : List Int :=
  match sh, eh with
  | some a, some b =>
    if a ≤ b then stepWhileLe b step a
    else stepWhileLt 24 step a ++ stepWhileLe b step 0
  | some a, none => stepWhileLt 24 step a
  | none, some b => stepWhileLe b step 0
  | none, none => []

/-- Guard of the Hourly branch: frequency === "Hourly" && schedule.endTime
(truthy). -/
def hourlyWindowCond (s : ScheduleConfig) : Bool :=
  decide (s.frequency = .Hourly) && strTruthy s.endTime

/-- Guard of the Daily sub-day branch: frequency === "Daily" &&
schedule.intervalHours && schedule.intervalHours < 24 && schedule.endTime. -/
def dailySubdayCond (s : ScheduleConfig) : Bool :=
  decide (s.frequency = .Daily) &&
    (match s.intervalHours with
     | some k => decide (k ≠ 0) && decide (k < 24)
     | none => false) &&
    strTruthy s.endTime

/-- computeRunHours from src/lib/utils.ts.  List entries are hour values;
`none` would be a NaN hour (only reachable through the fall-through
singleton with an unparseable start time). -/
def computeRunHours (s : ScheduleConfig) : List (Option Int) :=
  let sh := parseTimeHour s.startTime
  if hourlyWindowCond s then
    (hourlyWindowHours sh (parseTimeHour (s.endTime.getD ""))).map some
  else if dailySubdayCond s then
    (dailyWindowHours sh (parseTimeHour (s.endTime.getD ""))
      (s.intervalHours.getD 0)).map some
  else [sh]

/-! ## Analyzer (src/lib/analyzer.ts) -/

/-- One normalized entry of frequencyDetails.intervals.interval.  All four
attributes arrive as raw strings from the wire. -/
structure IntervalItem where
  weekDay : Option String
  hours : Option String
  minutes : Option String
  monthDay : Option String
deriving DecidableEq, Repr

/-- A raw task record, restricted to the fields the analyzer reads:
extractRefresh.id, schedule.frequency, frequencyDetails.start,
frequencyDetails.end and the normalized interval list. -/
structure RawTask where
  id : String
  frequency : String
  start : Option String
  endT : Option String
  intervals : List IntervalItem
deriving DecidableEq, Repr

/-- DAY_NAME_TO_INDEX: Tableau week-day name to heatmap index
(0 = Monday .. 6 = Sunday). -/
def dayNameToIndex (s : String) : Option Nat :=
  if s = "Sunday" then some 6
  else if s = "Monday" then some 0
  else if s = "Tuesday" then some 1
  else if s = "Wednesday" then some 2
  else if s = "Thursday" then some 3
  else if s = "Friday" then some 4
  else if s = "Saturday" then some 5
  else none

/-- extractScheduleDays on the normalized interval list: indices of the
entries carrying a known weekDay name, defaulting to all seven days when
none is present. -/
def extractScheduleDays (items : List IntervalItem) : List Nat :=
  let days := items.filterMap (fun it =>
    match it.weekDay with
    | some w => dayNameToIndex w
    | none => none)
  if days.length > 0 then days else [0, 1, 2, 3, 4, 5, 6]

/-- extractHourInterval on the normalized interval list.  An entry with a
parseable hours attribute wins; an entry with any minutes attribute means
sub-hourly and counts as one hour; the default is one hour. -/
def extractHourInterval : List IntervalItem → Int
  | [] => 1
  | it :: rest =>
    match it.hours with
    | some hs =>
      match parseIntJS hs with
      | some h => h
      | none =>
        match it.minutes with
        | some _ => 1
        | none => extractHourInterval rest
    | none =>
      match it.minutes with
      | some _ => 1
      | none => extractHourInterval rest

/-- parseScheduleTime: null (outer none) exactly when the string is
falsy; otherwise the parseInt of the first colon-separated part, where the
inner none is NaN. -/
def parseScheduleTime (timeStr : String) : Option (Option Int) :=
  if timeStr = "" then none
  else some (parseIntJS ((splitColon timeStr).getD 0 ""))

/-- The while-loop of expandHourlyRunHours: walk minutes from cur up to
endM in steps of step, breaking once the hour passes 23, collecting the
hour floor(cur / 60).  The source loop does not terminate for a
non-positive step; the model stops there instead. -/
def expandLoop (endM step : Int) (cur : Int) : List Int :=
  if _h : cur ≤ endM ∧ cur.fdiv 60 ≤ 23 ∧ 0 < step then
    cur.fdiv 60 :: expandLoop endM step (cur + step)
  else []
termination_by (endM + step - cur).toNat
decreasing_by
  simp_wf
  omega

/-- Insert an hour into a sorted list of distinct hours (model of adding
to a Set and sorting ascending at the end). -/
def insertHour (x : Int) : List Int → List Int
  | [] => [x]
  | y :: ys =>
    if x < y then x :: y :: ys
    else if x = y then y :: ys
    else y :: insertHour x ys

def sortedDedup (l : List Int) : List Int :=
  l.foldl (fun acc x => insertHour x acc) []

/-- expandHourlyRunHours from src/lib/analyzer.ts.  With a falsy end time
it returns the parsed start hour as a singleton (empty for a falsy start
time); otherwise it walks the minute window.  A NaN component in the
parsed start or end makes every loop comparison false, so those patterns
collapse to the empty list. -/
def expandHourlyRunHours (startTime : String) (endTime : Option String)
    (items : List IntervalItem) : List (Option Int) :=
  if !strTruthy endTime then
    match parseScheduleTime startTime with
    | none => []
    | some lh => [lh]
  else
    let sp := splitColon startTime
    let sh := parseIntJS (sp.getD 0 "")
    let sm := if sp.length > 1 then parseIntJS (sp.getD 1 "") else some 0
    let ep := splitColon (endTime.getD "")
    let eh := parseIntJS (ep.getD 0 "")
    let em := if ep.length > 1 then parseIntJS (ep.getD 1 "") else some 0
    let hourInterval := extractHourInterval items
    match sh, sm, eh, em with
    | some a, some b, some c, some d =>
      (sortedDedup (expandLoop (c * 60 + d) (hourInterval * 60) (a * 60 + b))).map some
    | _, _, _, _ => []

/-- Is the nullable string truthy (used for the interval-item attributes
weekDay and monthDay). -/
def itemAttrTruthy (o : Option String) : Bool :=
  strTruthy o

/-- The ordinal if-chain inside matchesMonthlyScheduleDate for one item
with ordinal token md: occurrence or last-occurrence test. -/
def ordinalChainMatches (md : String) (dayNum daysInMonth : Int) : Bool :=
  let occurrence := (dayNum - 1).fdiv 7 + 1
  let isLastOccurrence := decide (dayNum + 7 > daysInMonth)
  (decide (md = "First") && decide (occurrence = 1)) ||
    (decide (md = "Second") && decide (occurrence = 2)) ||
    (decide (md = "Third") && decide (occurrence = 3)) ||
    (decide (md = "Fourth") && decide (occurrence = 4)) ||
    (decide (md = "Fifth") && decide (occurrence = 5)) ||
    (decide (md = "Last") && isLastOccurrence)

/-- matchesMonthlyScheduleDate from src/lib/analyzer.ts, over the
normalized interval list. -/
def matchesMonthlyScheduleDate (dayNum daysInMonth : Int) (jsWeekDayName : String)
    (items : List IntervalItem) : Bool :=
  if items.length = 0 then false
  else
    items.any (fun item =>
      let onDayMatch :=
        !itemAttrTruthy item.weekDay && item.monthDay.isSome &&
          ((decide (item.monthDay = some "LastDay") && decide (dayNum = daysInMonth)) ||
            (match item.monthDay with
             | some md =>
               match parseIntJS md with
               | some n => decide (n = dayNum)
               | none => false
             | none => false))
      let ordinalMatch :=
        itemAttrTruthy item.weekDay && itemAttrTruthy item.monthDay &&
          decide (item.weekDay = some jsWeekDayName) &&
          (match item.monthDay with
           | some md => ordinalChainMatches md dayNum daysInMonth
           | none => false)
      onDayMatch || ordinalMatch)

/-- The per-task preprocessing of the analyzeScheduledTasks loop: none
when the record is skipped (falsy start time), otherwise the run-day
indices, the run hours and the parsed local start hour. -/
def taskRunInfo (t : RawTask) : Option (List Nat × List (Option Int) × Option Int) :=
  match t.start with
  | none => none
  | some st =>
    if st = "" then none
    else
      let localHour := parseIntJS ((splitColon st).getD 0 "")
      let runDays := extractScheduleDays t.intervals
      let endTimeUtc : Option String :=
        match t.endT with
        | some e => if e = "" then none else some e
        | none => none
      let lf := String.mk (t.frequency.data.map Char.toLower)
      let runHours : List (Option Int) :=
        if lf = "hourly" then
          expandHourlyRunHours st endTimeUtc t.intervals
        else if lf = "daily" then
          let extracted := extractHourInterval t.intervals
          let hourlyInterval := if extracted ∈ [2, 4, 6, 8, 12, 24] then extracted else 24
          if hourlyInterval < 24 ∧ endTimeUtc.isSome then
            expandHourlyRunHours st endTimeUtc t.intervals
          else [localHour]
        else [localHour]
      some (runDays, runHours, localHour)

/-- A distribution of occurrence counts keyed by hour, where the key none
is the NaN hour key a JavaScript object can acquire. -/
def emptyDist : Option Int → Nat := fun _ => 0

/-- Increment the count of one run hour. -/
def bumpHour (d : Option Int → Nat) (k : Option Int) : Option Int → Nat :=
  fun x => if x = k then d k + 1 else d x

/-- The nested count loop of analyzeScheduledTasks: one increment per
(run day, run hour) pair of the task. -/
def countTask (dist : Option Int → Nat) (t : RawTask) : Option Int → Nat :=
  match taskRunInfo t with
  | none => dist
  | some (runDays, runHours, _) =>
    runDays.foldl (fun d _ => runHours.foldl bumpHour d) dist

/-- hourlyCountsParam after the analyzeScheduledTasks loop. -/
def hourlyCounts (tasks : List RawTask) : Option Int → Nat :=
  tasks.foldl countTask emptyDist

/-- The taskDetails list of analyzeScheduledTasks, reduced to the task id
with its run days and run hours (every non-skipped record is appended). -/
def taskDetailsList (tasks : List RawTask) : List (String × List Nat × List (Option Int)) :=
  tasks.filterMap (fun t => (taskRunInfo t).map (fun info => (t.id, info.1, info.2.1)))

/-! ## Calendar date utilities

getDaysInMonth in src/lib/utils.ts delegates to the JavaScript Date
object; the model spells out the proleptic Gregorian rules the Date
object implements for months 1..12.  The week-day of a valid Gregorian
date (Date.prototype.getDay, 0 = Sunday) is computed with the Sakamoto
formula. -/

def isLeapYear (y : Nat) : Bool :=
  (decide (y % 4 = 0) && decide (y % 100 ≠ 0)) || decide (y % 400 = 0)

def getDaysInMonth (year month : Nat) : Nat :=
  match month with
  | 1 => 31
  | 2 => if isLeapYear year then 29 else 28
  | 3 => 31
  | 4 => 30
  | 5 => 31
  | 6 => 30
  | 7 => 31
  | 8 => 31
  | 9 => 30
  | 10 => 31
  | 11 => 30
  | 12 => 31
  | _ => 0

def sakamotoOffsets : List Nat := [0, 3, 2, 5, 0, 3, 5, 1, 4, 6, 2, 4]

/-- Day of week of a valid Gregorian date, 0 = Sunday .. 6 = Saturday. -/
def dayOfWeek (y m d : Nat) : Nat :=
  let y2 := if m < 3 then y - 1 else y
  (y2 + y2 / 4 - y2 / 100 + y2 / 400 + sakamotoOffsets.getD (m - 1) 0 + d) % 7

/-- SUNDAY_FIRST_DAY_NAMES of src/lib/filters.ts, as Weekday values. -/
def sundayFirstDays : List Weekday :=
  [.Sunday, .Monday, .Tuesday, .Wednesday, .Thursday, .Friday, .Saturday]

/-! ## Date filter (src/lib/filters.ts, taskRunsOnDate)

The source receives an ISO date string and parses it with Number; the
model receives the three parsed components directly, with zero standing
for the falsy parse results that make the function return true early. -/

def taskRunsOnDate (sched : ScheduleConfig) (year month day : Nat) : Bool :=
  if year = 0 || month = 0 || day = 0 then true
  else
    let dayName := sundayFirstDays.getD (dayOfWeek year month day) .Sunday
    if decide (sched.weekDays.length > 0) && !(decide (dayName ∈ sched.weekDays)) then false
    else if sched.frequency ≠ .Monthly then true
    else if sched.monthDays.length > 0 then
      sched.monthDays.any (fun md =>
        match md with
        | .lastDay => decide (day = getDaysInMonth year month)
        | .num n => decide (n = (day : Int)))
    else
      match sched.monthlyOrdinal, sched.monthlyWeekDay with
      | some ord, some w =>
        if w ≠ dayName then false
        else
          let occurrence := (day - 1) / 7 + 1
          let isLastOccurrence := decide (day + 7 > getDaysInMonth year month)
          match ord with
          | .Last => isLastOccurrence
          | .First => decide (occurrence = 1)
          | .Second => decide (occurrence = 2)
          | .Third => decide (occurrence = 3)
          | .Fourth => decide (occurrence = 4)
          | .Fifth => decide (occurrence = 5)
      | _, _ => true

/-! ## Batch impact simulator (src/hooks/use-batch-impact.ts) -/

/-- A batch plan item, restricted to the fields useBatchImpact reads. -/
structure BatchPlanItem where
  id : String
  taskId : String
  newSchedule : ScheduleConfig
  taskDays : Int
  runHours : List Int
  newRunHours : List Int
deriving DecidableEq, Repr

/-- computeTaskDays: weekDays.length with 7 substituted for an empty
list, and the documented fixed approximation of 4 for Monthly. -/
def computeTaskDays (s : ScheduleConfig) : Int :=
  match s.frequency with
  | .Weekly => if s.weekDays.length = 0 then 7 else (s.weekDays.length : Int)
  | .Monthly => 4
  | _ => if s.weekDays.length = 0 then 7 else (s.weekDays.length : Int)

/-- Pointwise update of a distribution at one hour key. -/
def updateAt (d : Int → Int) (k v : Int) : Int → Int :=
  fun h => if h = k then v else d h

/-- One subtraction step: proposedDist[hour] -= taskDays, clamped at 0. -/
def subStep (w : Int) (d : Int → Int) (hr : Int) : Int → Int :=
  updateAt d hr (if d hr - w < 0 then 0 else d hr - w)

/-- One addition step: proposedDist[hour] += newTaskDays. -/
def addStep (w : Int) (d : Int → Int) (hr : Int) : Int → Int :=
  updateAt d hr (d hr + w)

/-- The per-item body of the useBatchImpact loop: subtract the old weight
over the old run hours (clamped at zero), then add the new weight over
the new run hours. -/
def applyEdit (dist : Int → Int) (item : BatchPlanItem) : Int → Int :=
  item.newRunHours.foldl (addStep (computeTaskDays item.newSchedule))
    (item.runHours.foldl (subStep item.taskDays) dist)

/-- proposedDist as computed by useBatchImpact from the baseline
distribution and the list of batch edits. -/
def proposedDistribution (baseline : Int → Int) (items : List BatchPlanItem) : Int → Int :=
  items.foldl applyEdit baseline

/-! ## Health metrics

Three independent implementations exist in the source: computeEnhancedStats
in src/lib/analyzer.ts, computeHealthMetrics in
src/hooks/use-batch-impact.ts, and computeHealthFromDistribution in
src/mcp-server/tools/simulate.ts.  Each is modelled separately below over
a distribution that assigns a rational count to each of the 24 hours
(the object with keys 0..23 all implementations receive).  Math.sqrt is a
function parameter shared by every model; Math.round is floor(x + 1/2)
and Number.prototype.toFixed(1) on the nonnegative values produced here
is floor(10 x + 1/2) / 10. -/

inductive Health
  | green
  | yellow
  | red
deriving DecidableEq, Repr

structure MetricValue where
  value : ℚ
  health : Health
deriving DecidableEq, Repr

structure BusiestWindow where
  label : String
  count : ℚ
  pct : ℚ
  health : Health
deriving DecidableEq, Repr

/-- The HealthMetrics record of src/lib/types.ts.  The fourth metric is
named peakAvgRatio in the source. -/
structure HealthMetrics where
  loadBalanceScore : MetricValue
  busiestWindow : BusiestWindow
  utilization : MetricValue
  peakAvg : MetricValue
deriving DecidableEq, Repr

/-- Math.round. -/
def jsRound (q : ℚ) : ℚ :=
  ((⌊q + 1/2⌋ : ℤ) : ℚ)

/-- parseFloat(x.toFixed(1)) for the nonnegative x this code feeds it. -/
def round1 (q : ℚ) : ℚ :=
  ((⌊q * 10 + 1/2⌋ : ℤ) : ℚ) / 10

/-- HEALTH_THRESHOLDS from src/lib/constants.ts, keyed by metric name. -/
def healthThresholds (metric : String) : ℚ × ℚ :=
  if metric = "loadBalanceScore" then (75, 50)
  else if metric = "peakAvgRatio" then (9/5, 3)
  else if metric = "utilization" then (60, 40)
  else (20, 35)

/-- getHealthColor from src/lib/constants.ts. -/
def getHealthColor (metric : String) (value : ℚ) : Health :=
  let t := healthThresholds metric
  if metric = "loadBalanceScore" ∨ metric = "utilization" then
    if value ≥ t.1 then .green
    else if value ≥ t.2 then .yellow
    else .red
  else
    if value ≤ t.1 then .green
    else if value ≤ t.2 then .yellow
    else .red

/-- HOUR_LABELS lookup of formatHour from src/lib/utils.ts, with the
template-literal fallback. -/
def formatHour (h : Nat) : String :=
  match h with
  | 0 => "12 AM"
  | 1 => "1 AM"
  | 2 => "2 AM"
  | 3 => "3 AM"
  | 4 => "4 AM"
  | 5 => "5 AM"
  | 6 => "6 AM"
  | 7 => "7 AM"
  | 8 => "8 AM"
  | 9 => "9 AM"
  | 10 => "10 AM"
  | 11 => "11 AM"
  | 12 => "12 PM"
  | 13 => "1 PM"
  | 14 => "2 PM"
  | 15 => "3 PM"
  | 16 => "4 PM"
  | 17 => "5 PM"
  | 18 => "6 PM"
  | 19 => "7 PM"
  | 20 => "8 PM"
  | 21 => "9 PM"
  | 22 => "10 PM"
  | 23 => "11 PM"
  | n => toString n ++ ":00"

/-- Math.max over a nonempty list of counts. -/
def listMaxQ : List ℚ → ℚ
  | [] => 0
  | x :: xs => xs.foldl max x

/-- The sliding 3-hour-window loop shared by all three implementations:
best (start, sum) with strict improvement, initialized to (0, 0). -/
def busiestFold (dist : Nat → ℚ) : Nat × ℚ :=
  (List.range 24).foldl
    (fun acc start =>
      let windowSum := dist ((start + 0) % 24) + dist ((start + 1) % 24) + dist ((start + 2) % 24)
      if acc.2 < windowSum then (start, windowSum) else acc)
    (0, 0)

/-- computeEnhancedStats from src/lib/analyzer.ts. -/
def computeEnhancedStats (sqrtQ : ℚ → ℚ) (dist : Nat → ℚ) : HealthMetrics :=
  let counts := (List.range 24).map dist
  let total := counts.foldl (fun sum c => sum + c) 0
  if total = 0 then
    ⟨⟨100, .green⟩, ⟨"N/A", 0, 0, .green⟩, ⟨0, .green⟩, ⟨0, .green⟩⟩
  else
    let mean := total / 24
    let variance := (counts.foldl (fun sum c => sum + (c - mean) ^ 2) 0) / 24
    let stdDev := sqrtQ variance
    let cv := if 0 < mean then stdDev / mean else 0
    let score := max 0 (jsRound (100 / (1 + cv)))
    let scoreHealth := getHealthColor "loadBalanceScore" score
    let best := busiestFold dist
    let endHour := (best.1 + 3) % 24
    let windowLabel := formatHour best.1 ++ "-" ++ formatHour endHour
    let windowPct := if 0 < total then best.2 / total * 100 else 0
    let windowHealth := getHealthColor "busyWindowPct" windowPct
    let activeHours := (counts.filter (fun c => decide (0 < c))).length
    let utilization := jsRound ((activeHours : ℚ) / 24 * 100)
    let utilHealth := getHealthColor "utilization" utilization
    let maxCount := listMaxQ counts
    let ratioVal := if 0 < mean then round1 (maxCount / mean) else 0
    let ratioHealth := getHealthColor "peakAvgRatio" ratioVal
    ⟨⟨score, scoreHealth⟩, ⟨windowLabel, best.2, round1 windowPct, windowHealth⟩,
      ⟨utilization, utilHealth⟩, ⟨ratioVal, ratioHealth⟩⟩

/-- computeHealthMetrics from src/hooks/use-batch-impact.ts. -/
def computeHealthMetrics (sqrtQ : ℚ → ℚ) (dist : Nat → ℚ) : HealthMetrics :=
  let counts := (List.range 24).map dist
  let total := counts.foldl (fun sum c => sum + c) 0
  if total = 0 then
    ⟨⟨100, .green⟩, ⟨"N/A", 0, 0, .green⟩, ⟨0, .green⟩, ⟨0, .green⟩⟩
  else
    let mean := total / 24
    let variance := (counts.foldl (fun sum c => sum + (c - mean) ^ 2) 0) / 24
    let stdDev := sqrtQ variance
    let cv := if 0 < mean then stdDev / mean else 0
    let score := max 0 (jsRound (100 / (1 + cv)))
    let scoreHealth := getHealthColor "loadBalanceScore" score
    let best := busiestFold dist
    let endHour := (best.1 + 3) % 24
    let windowLabel := formatHour best.1 ++ "-" ++ formatHour endHour
    let windowPct := if 0 < total then best.2 / total * 100 else 0
    let windowHealth := getHealthColor "busyWindowPct" windowPct
    let activeHours := (counts.filter (fun c => decide (0 < c))).length
    let utilization := jsRound ((activeHours : ℚ) / 24 * 100)
    let utilHealth := getHealthColor "utilization" utilization
    let maxCount := listMaxQ counts
    let ratioVal := if 0 < mean then round1 (maxCount / mean) else 0
    let ratioHealth := getHealthColor "peakAvgRatio" ratioVal
    ⟨⟨score, scoreHealth⟩, ⟨windowLabel, best.2, round1 windowPct, windowHealth⟩,
      ⟨utilization, utilHealth⟩, ⟨ratioVal, ratioHealth⟩⟩

/-- computeHealthFromDistribution from src/mcp-server/tools/simulate.ts. -/
def computeHealthFromDistribution (sqrtQ : ℚ → ℚ) (dist : Nat → ℚ) : HealthMetrics :=
  let counts := (List.range 24).map dist
  let total := counts.foldl (fun sum c => sum + c) 0
  if total = 0 then
    ⟨⟨100, .green⟩, ⟨"N/A", 0, 0, .green⟩, ⟨0, .green⟩, ⟨0, .green⟩⟩
  else
    let mean := total / 24
    let variance := (counts.foldl (fun sum c => sum + (c - mean) ^ 2) 0) / 24
    let stdDev := sqrtQ variance
    let cv := if 0 < mean then stdDev / mean else 0
    let score := max 0 (jsRound (100 / (1 + cv)))
    let scoreHealth := getHealthColor "loadBalanceScore" score
    let best := busiestFold dist
    let endHour := (best.1 + 3) % 24
    let windowLabel := formatHour best.1 ++ "-" ++ formatHour endHour
    let windowPct := if 0 < total then best.2 / total * 100 else 0
    let windowHealth := getHealthColor "busyWindowPct" windowPct
    let activeHours := (counts.filter (fun c => decide (0 < c))).length
    let utilization := jsRound ((activeHours : ℚ) / 24 * 100)
    let utilHealth := getHealthColor "utilization" utilization
    let maxCount := listMaxQ counts
    let ratioVal := if 0 < mean then round1 (maxCount / mean) else 0
    let ratioHealth := getHealthColor "peakAvgRatio" ratioVal
    ⟨⟨score, scoreHealth⟩, ⟨windowLabel, best.2, round1 windowPct, windowHealth⟩,
      ⟨utilization, utilHealth⟩, ⟨ratioVal, ratioHealth⟩⟩

/-! ## Statement-support definitions -/

/-- Occurrences of one hour key in a run-hour list. -/
def countOccOpt (k : Option Int) (l : List (Option Int)) : Nat :=
  (l.filter (fun x => decide (x = k))).length

/-- Occurrences of one hour in an integer hour list. -/
def countOccInt (k : Int) (l : List Int) : Nat :=
  (l.filter (fun x => decide (x = k))).length

/-- The occurrence-count contribution of one raw task at one hour key:
run-day entries times occurrences of the key among its run hours, zero
for a skipped task. -/
def contribTask (t : RawTask) (k : Option Int) : Nat :=
  match taskRunInfo t with
  | none => 0
  | some info => info.1.length * countOccOpt k info.2.1

/-- Total occurrence count of the hourly distribution over the 24
initialized hour keys. -/
def totalCount24 (tasks : List RawTask) : Nat :=
  ∑ n ∈ Finset.range 24, hourlyCounts tasks (some (n : Int))

/-- Total old weight subtracted at one hour over a list of batch edits. -/
def totalSubtracted (items : List BatchPlanItem) (h : Int) : Int :=
  (items.map (fun it => it.taskDays * (countOccInt h it.runHours : Int))).sum

/-- Total new weight added at one hour over a list of batch edits. -/
def totalAdded (items : List BatchPlanItem) (h : Int) : Int :=
  (items.map (fun it => computeTaskDays it.newSchedule * (countOccInt h it.newRunHours : Int))).sum

/-- The ordinal condition exactly as the specification states it, for the
wire-level ordinal token: First..Fifth require floor((day - 1) / 7) + 1 to
equal the ordinal number, Last requires day + 7 > daysInMonth. -/
def claimOrdinalProp (ord : String) (day daysInMonth : Int) : Prop :=
  (ord = "First" ∧ (day - 1).fdiv 7 + 1 = 1) ∨
    (ord = "Second" ∧ (day - 1).fdiv 7 + 1 = 2) ∨
    (ord = "Third" ∧ (day - 1).fdiv 7 + 1 = 3) ∨
    (ord = "Fourth" ∧ (day - 1).fdiv 7 + 1 = 4) ∨
    (ord = "Fifth" ∧ (day - 1).fdiv 7 + 1 = 5) ∨
    (ord = "Last" ∧ day + 7 > daysInMonth)

/-- The same condition for the typed ordinal of a ScheduleConfig. -/
def claimOrdinalPropW (o : MonthlyOrdinal) (day daysInMonth : Nat) : Prop :=
  match o with
  | .First => (day - 1) / 7 + 1 = 1
  | .Second => (day - 1) / 7 + 1 = 2
  | .Third => (day - 1) / 7 + 1 = 3
  | .Fourth => (day - 1) / 7 + 1 = 4
  | .Fifth => (day - 1) / 7 + 1 = 5
  | .Last => day + 7 > daysInMonth

/-- A Monthly OnOrdinalWeekday schedule configuration. -/
def monthlyOrdinalSchedule (o : MonthlyOrdinal) (w : Weekday) : ScheduleConfig :=
  ⟨.Monthly, "14:00", none, some 24, [], [], some o, some w⟩

/-- A Monthly OnDay schedule whose day set is the singleton LastDay. -/
def monthlyLastDaySchedule : ScheduleConfig :=
  ⟨.Monthly, "06:00", none, some 24, [], [.lastDay], none, none⟩

def allSevenDays : List Weekday :=
  [.Monday, .Tuesday, .Wednesday, .Thursday, .Friday, .Saturday, .Sunday]

/-- Edit moving a seven-day daily task from hour 8 to hour 2. -/
def editA : BatchPlanItem :=
  ⟨"item-a", "task-a", ⟨.Daily, "02:00", none, some 24, allSevenDays, [], none, none⟩,
    7, [8], [2]⟩

/-- Edit moving a seven-day daily task from hour 2 to hour 8. -/
def editB : BatchPlanItem :=
  ⟨"item-b", "task-b", ⟨.Daily, "08:00", none, some 24, allSevenDays, [], none, none⟩,
    7, [2], [8]⟩

/-- The 22:00 to 02:00 every-2-hours Daily schedule of the claim. -/
def wrapDailySchedule : ScheduleConfig :=
  ⟨.Daily, "22:00", some "02:00", some 2, [], [], none, none⟩

/-- An interval entry carrying hours="2". -/
def twoHourItem : IntervalItem := ⟨none, some "2", none, none⟩

/-- Daily schedule whose start and end minutes differ. -/
def dailyMinuteMismatch : ScheduleConfig :=
  ⟨.Daily, "08:30", some "22:00", some 4, [], [], none, none⟩

/-- Canonical legal examples of the five documented shapes. -/
def hourlyLegalExample : ScheduleConfig :=
  ⟨.Hourly, "07:00", some "22:00", some 1, [], [], none, none⟩

def dailyLegalExample : ScheduleConfig :=
  ⟨.Daily, "08:00", some "20:00", some 4, [.Monday, .Friday], [], none, none⟩

def weeklyLegalExample : ScheduleConfig :=
  ⟨.Weekly, "09:00", none, some 24, [.Wednesday], [], none, none⟩

def monthlyOnDayLegalExample : ScheduleConfig :=
  ⟨.Monthly, "06:00", none, some 24, [], [.num 1, .num 15], none, none⟩

def monthlyOrdinalLegalExample : ScheduleConfig :=
  ⟨.Monthly, "11:05", none, some 24, [], [], some .Second, some .Monday⟩

/-- Documented illegal combinations of the claim. -/
def hourlyInterval2Example : ScheduleConfig :=
  ⟨.Hourly, "07:00", some "22:00", some 2, [], [], none, none⟩

def weeklyEmptyExample : ScheduleConfig :=
  ⟨.Weekly, "09:00", none, some 24, [], [], none, none⟩

def monthlyBothModesExample : ScheduleConfig :=
  ⟨.Monthly, "06:00", none, some 24, [], [.num 15], some .Second, some .Monday⟩

def dailyNoEndExample : ScheduleConfig :=
  ⟨.Daily, "08:00", none, some 4, [], [], none, none⟩

/-- A raw task whose start time is nonempty but not parseable as a
number. -/
def badStartTask : RawTask := ⟨"task-bad", "Daily", some "XX:00", none, []⟩

/-- A once-a-day raw task starting at 08:00 with no week-day
restriction. -/
def dailyEightTask : RawTask := ⟨"task-1", "Daily", some "08:00", none, []⟩

/-! ## Raw schedule model (src/lib/types.ts, ScheduleConfig, as typed)

buildScheduleXml receives the TypeScript ScheduleConfig exactly as
declared: weekDays is string[], monthDays is (number | "LastDay")[] and
monthlyWeekDay is string | null.  The zod schema checks enum membership
of the week-day strings and integrality of the numeric month days, while
the serializer does not, so those checks are load-bearing for comparing
the two; this raw model keeps them representable.  JavaScript numbers in
monthDays are modelled as rationals (the zod .int() check is q.den = 1). -/

/-- A raw monthDays entry: a JavaScript number or the literal LastDay. -/
inductive RawMonthDay
  | num (q : ℚ)
  | lastDay
deriving DecidableEq, Repr

/-- The TypeScript ScheduleConfig record as typed in src/lib/types.ts. -/
structure RawScheduleConfig where
  frequency : Frequency
  startTime : String
  endTime : Option String
  intervalHours : Option Int
  weekDays : List String
  monthDays : List RawMonthDay
  monthlyOrdinal : Option MonthlyOrdinal
  monthlyWeekDay : Option String
deriving DecidableEq, Repr

/-- The seven Tableau week-day names: the zod enum list of
src/lib/schemas.ts and the validWeekdays list of the serializer (both
source literals hold these same seven names). -/
def validWeekdayNames : List String :=
  ["Sunday", "Monday", "Tuesday", "Wednesday", "Thursday", "Friday", "Saturday"]

/-- Acceptance predicate of scheduleConfigSchema.safeParse over the raw
record: as scheduleAccepts above, plus the checks the narrowed view made
vacuous — enum membership of every weekDays entry (all four branches),
enum-or-null monthlyWeekDay and integrality of numeric month days
(Monthly branch). -/
def scheduleAcceptsRaw (s : RawScheduleConfig) : Bool :=
  match s.frequency with
  | .Hourly =>
    wellFormedTimeStr s.startTime &&
      decide (s.intervalHours = some 1) &&
      (match s.endTime with
       | some e => wellFormedTimeStr e
       | none => false) &&
      s.weekDays.all (fun w => decide (w ∈ validWeekdayNames)) &&
      s.monthlyOrdinal.isNone && s.monthlyWeekDay.isNone
  | .Daily =>
    wellFormedTimeStr s.startTime &&
      endTimeNullableOk s.endTime &&
      intervalIn s.intervalHours [2, 4, 6, 8, 12, 24] &&
      s.weekDays.all (fun w => decide (w ∈ validWeekdayNames)) &&
      s.monthlyOrdinal.isNone && s.monthlyWeekDay.isNone &&
      (match s.intervalHours with
       | some k => if k ∈ [2, 4, 6, 8, 12] then s.endTime.isSome else true
       | none => false)
  | .Weekly =>
    wellFormedTimeStr s.startTime &&
      s.endTime.isNone &&
      (decide (s.intervalHours = some 24) || s.intervalHours.isNone) &&
      s.weekDays.all (fun w => decide (w ∈ validWeekdayNames)) &&
      decide (1 ≤ s.weekDays.length) && decide (s.weekDays.length ≤ 7) &&
      s.monthlyOrdinal.isNone && s.monthlyWeekDay.isNone
  | .Monthly =>
    wellFormedTimeStr s.startTime &&
      s.endTime.isNone &&
      (decide (s.intervalHours = some 24) || s.intervalHours.isNone) &&
      s.weekDays.all (fun w => decide (w ∈ validWeekdayNames)) &&
      s.monthDays.all (fun d =>
        match d with
        | .num q => decide (q.den = 1) && decide (1 ≤ q) && decide (q ≤ 31)
        | .lastDay => true) &&
      (match s.monthlyWeekDay with
       | none => true
       | some w => decide (w ∈ validWeekdayNames)) &&
      Bool.xor (decide (s.monthDays.length > 0))
        (s.monthlyOrdinal.isSome && s.monthlyWeekDay.isSome)

/-- Rendering of a raw monthDays entry (String(day) in the source; the
digit form of a non-integer differs between the JavaScript printer and
the rational printer, but no theorem depends on the rendered digits). -/
def rawMonthDayStr : RawMonthDay → String
  | .num q => toString q
  | .lastDay => "LastDay"

def buildHourlyIntervalsRaw (intervalHours : Option Int) (weekDays : List String) : String :=
  let hourInterval := "<interval hours=\"" ++ showIntervalHours intervalHours ++ "\" />"
  let effectiveDays := if weekDays.length = 0 then ALL_WEEKDAYS else weekDays
  hourInterval ++ "\n      " ++ joinSep "\n      " (effectiveDays.map weekDayIntervalXml)

def buildDailyIntervalsRaw (intervalHours : Option Int) (weekDays : List String) : String :=
  let hourInterval := "<interval hours=\"" ++ showIntervalHours intervalHours ++ "\" />"
  let effectiveDays := if weekDays.length = 0 then ALL_WEEKDAYS else weekDays
  hourInterval ++ "\n      " ++ joinSep "\n      " (effectiveDays.map weekDayIntervalXml)

def buildWeeklyIntervalsRaw (weekDays : List String) : Except String String :=
  if weekDays.length = 0 then
    .error "Weekly frequency requires at least one weekDay"
  else
    .ok (joinSep "\n      " (weekDays.map weekDayIntervalXml))

def buildMonthlyIntervalsRaw (monthDays : List RawMonthDay)
    (monthlyOrdinal : Option MonthlyOrdinal) (monthlyWeekDay : Option String) :
    Except String String :=
  let hasMonthDays := decide (monthDays.length > 0)
  let hasOrdinal := monthlyOrdinal.isSome && strTruthy monthlyWeekDay
  if hasMonthDays && hasOrdinal then
    .error "Monthly frequency: monthDays and monthlyOrdinal are mutually exclusive"
  else if !hasMonthDays && !hasOrdinal then
    .error "Monthly frequency requires either monthDays or (monthlyOrdinal + monthlyWeekDay)"
  else if hasMonthDays then
    .ok (joinSep "\n      " (monthDays.map (fun day =>
      "<interval monthDay=\"" ++ escapeXmlAttr (rawMonthDayStr day) ++ "\" />")))
  else
    match monthlyOrdinal, monthlyWeekDay with
    | some o, some w =>
      .ok ("<interval monthDay=\"" ++ escapeXmlAttr (ordinalName o) ++ "\" weekDay=\"" ++
        escapeXmlAttr w ++ "\" />")
    | _, _ => .error "unreachable"

/-- validateSchedule over the raw record.  The numeric month-day loop
throws only for a number below 1 or above 31 (a non-integer in range
passes); the Monthly ordinal branch checks monthlyWeekDay against
validWeekdays — a real check on the string-typed field — while the
monthlyOrdinal membership check cannot fail on the literal-union-typed
ordinal. -/
def validateScheduleRaw (s : RawScheduleConfig) : Option String :=
  if s.startTime = "" then some "startTime is required"
  else
    match s.frequency with
    | .Hourly =>
      if s.intervalHours ≠ some 1 then some "Hourly frequency requires intervalHours === 1"
      else if !strTruthy s.endTime then some "Hourly frequency requires endTime"
      else if !minuteAlignmentOk s.startTime (s.endTime.getD "") then
        some "startTime and endTime must have matching minutes"
      else none
    | .Daily =>
      if !intervalIn s.intervalHours [2, 4, 6, 8, 12, 24] then
        some "Daily frequency requires intervalHours in [2, 4, 6, 8, 12, 24]"
      else if intervalIn s.intervalHours [2, 4, 6, 8, 12] && !strTruthy s.endTime then
        some "Daily frequency with a sub-day interval requires endTime"
      else if strTruthy s.endTime && !minuteAlignmentOk s.startTime (s.endTime.getD "") then
        some "startTime and endTime must have matching minutes"
      else none
    | .Weekly =>
      if s.weekDays.length = 0 then some "Weekly frequency requires at least one weekDay"
      else if s.weekDays.length > 7 then some "Weekly frequency cannot have more than 7 weekDays"
      else none
    | .Monthly =>
      let hasMonthDays := decide (s.monthDays.length > 0)
      let hasOrdinal := s.monthlyOrdinal.isSome && strTruthy s.monthlyWeekDay
      if hasMonthDays && hasOrdinal then
        some "Monthly: monthDays and monthlyOrdinal are mutually exclusive"
      else if !hasMonthDays && !hasOrdinal then
        some "Monthly requires either monthDays or (monthlyOrdinal + monthlyWeekDay)"
      else if hasMonthDays && s.monthDays.any (fun d =>
          match d with
          | .num q => decide (q < 1) || decide (q > 31)
          | .lastDay => false) then
        some "Invalid monthDay value"
      else if hasOrdinal && !(decide ((s.monthlyWeekDay.getD "") ∈ validWeekdayNames)) then
        some "Invalid monthlyWeekDay"
      else none

/-- buildScheduleXml over the raw record. -/
def buildScheduleXmlRaw (s : RawScheduleConfig) : Except String String :=
  match validateScheduleRaw s with
  | some e => .error e
  | none =>
    let startTimeFull := ensureTimeFormat s.startTime
    let endTimeFull : Option String :=
      match s.endTime with
      | some e => if e = "" then none else some (ensureTimeFormat e)
      | none => none
    match s.frequency with
    | .Hourly =>
      .ok (wrapXml "Hourly" startTimeFull endTimeFull
        (buildHourlyIntervalsRaw s.intervalHours s.weekDays))
    | .Daily =>
      .ok (wrapXml "Daily" startTimeFull endTimeFull
        (buildDailyIntervalsRaw s.intervalHours s.weekDays))
    | .Weekly =>
      match buildWeeklyIntervalsRaw s.weekDays with
      | .error e => .error e
      | .ok iv => .ok (wrapXml "Weekly" startTimeFull none iv)
    | .Monthly =>
      match buildMonthlyIntervalsRaw s.monthDays s.monthlyOrdinal s.monthlyWeekDay with
      | .error e => .error e
      | .ok iv => .ok (wrapXml "Monthly" startTimeFull none iv)

/-- True when buildScheduleXmlRaw returns a document rather than
throwing. -/
def serializerOkRaw (s : RawScheduleConfig) : Bool :=
  match buildScheduleXmlRaw s with
  | .ok _ => true
  | .error _ => false

/-- The canonical domain on which the serializer and the zod schema are
compared, over the raw record: well-formed times, matching start and end
minutes where both are present, null endTime and an intervalHours of 24
or null on Weekly and Monthly schedules, no stray monthly fields on
non-Monthly schedules, every weekDays entry one of the seven week-day
names, monthlyWeekDay null or one of the seven names, and every numeric
monthDays entry an integer. -/
def canonicalRawB (s : RawScheduleConfig) : Bool :=
  wellFormedTimeStr s.startTime &&
    (match s.endTime with
     | none => true
     | some e => wellFormedTimeStr e && decide (minuteStr s.startTime = minuteStr e)) &&
    (if s.frequency = .Weekly ∨ s.frequency = .Monthly then
       s.endTime.isNone && (decide (s.intervalHours = some 24) || s.intervalHours.isNone)
     else true) &&
    (if s.frequency = .Monthly then true
     else s.monthlyOrdinal.isNone && s.monthlyWeekDay.isNone) &&
    s.weekDays.all (fun w => decide (w ∈ validWeekdayNames)) &&
    (match s.monthlyWeekDay with
     | none => true
     | some w => decide (w ∈ validWeekdayNames)) &&
    s.monthDays.all (fun d =>
      match d with
      | .num q => decide (q.den = 1)
      | .lastDay => true)

/-- Hourly raw schedule whose start and end minutes differ: accepted by
the schema, rejected by the serializer. -/
def hourlyMinuteMismatchRaw : RawScheduleConfig :=
  ⟨.Hourly, "08:30", some "22:00", some 1, [], [], none, none⟩

/-- Daily raw schedule carrying the abbreviated week-day string Mon:
rejected by the zod enum, serialized without failure. -/
def dailyMonAbbrevRaw : RawScheduleConfig :=
  ⟨.Daily, "08:00", some "20:00", some 4, ["Mon"], [], none, none⟩

/-- A canonical raw Weekly schedule. -/
def weeklyLegalRawExample : RawScheduleConfig :=
  ⟨.Weekly, "09:00", none, some 24, ["Wednesday"], [], none, none⟩

/-! ## Shared helper lemmas -/

set_option maxRecDepth 4000

lemma wf_ne_empty {t : String} (h : wellFormedTimeStr t = true) : t ≠ "" := by
  intro he
  subst he
  exact absurd h (by decide)

lemma foldl_add_replicate_zero (n : ℕ) :
    ∀ a : ℚ, List.foldl (fun s c => s + c) a (List.replicate n 0) = a := by
  induction n with
  | zero => intro a; simp
  | succ k ih => intro a; simpa [List.replicate_succ] using ih a

lemma zeroDistTotal :
    List.foldl (fun sum c => sum + c) 0 ((List.range 24).map (fun _ : ℕ => (0 : ℚ))) = 0 := by
  have hrep : (List.range 24).map (fun _ : ℕ => (0 : ℚ)) = List.replicate 24 0 := by simp
  rw [hrep]
  exact foldl_add_replicate_zero 24 0

lemma monthlyAllIffNoBad (md : List MonthDay) :
    (md.all fun d => match d with
      | MonthDay.num n => decide (1 ≤ n) && decide (n ≤ 31)
      | MonthDay.lastDay => true) = true ↔
    ¬ ∃ x ∈ md, (match x with
      | MonthDay.num n => decide (n < 1) || decide (31 < n)
      | MonthDay.lastDay => false) = true := by
  rw [List.all_eq_true]
  constructor
  · rintro hall ⟨x, hmem, hbad⟩
    have := hall x hmem
    cases x <;> simp_all <;> omega
  · intro hn x hmem
    cases x with
    | lastDay => rfl
    | num n =>
      by_contra hne
      apply hn
      refine ⟨.num n, hmem, ?_⟩
      simp at hne ⊢
      omega

lemma expandLoopWrapEmpty : expandLoop 120 120 1320 = [] := by
  rw [expandLoop]
  norm_num

lemma stepLtWrap : stepWhileLt 24 2 22 = [22] := by
  rw [stepWhileLt]; norm_num
  rw [stepWhileLt]; norm_num

lemma stepLeWrap : stepWhileLe 2 2 0 = [0, 2] := by
  rw [stepWhileLe]; norm_num
  rw [stepWhileLe]; norm_num
  rw [stepWhileLe]; norm_num

lemma countOccOpt_cons (k x : Option Int) (xs : List (Option Int)) :
    countOccOpt k (x :: xs) = (if x = k then 1 else 0) + countOccOpt k xs := by
  by_cases h : x = k <;> simp [countOccOpt, h] <;> omega

lemma bumpFold_count (hs : List (Option Int)) :
    ∀ (d : Option Int → Nat) (k : Option Int),
      (hs.foldl bumpHour d) k = d k + countOccOpt k hs := by
  induction hs with
  | nil => intro d k; simp [countOccOpt]
  | cons x xs ih =>
    intro d k
    simp only [List.foldl_cons]
    rw [ih, countOccOpt_cons]
    by_cases hk : x = k
    · subst hk
      simp [bumpHour]
      omega
    · have hk2 : ¬(k = x) := fun h => hk h.symm
      simp [bumpHour, hk, hk2]

lemma dayFold_count (days : List Nat) (hs : List (Option Int)) :
    ∀ (d : Option Int → Nat) (k : Option Int),
      (days.foldl (fun acc _ => hs.foldl bumpHour acc) d) k =
        d k + days.length * countOccOpt k hs := by
  induction days with
  | nil => intro d k; simp
  | cons x xs ih =>
    intro d k
    simp only [List.foldl_cons]
    rw [ih, bumpFold_count]
    simp [List.length_cons]
    ring

lemma countTask_char (t : RawTask) (d : Option Int → Nat) (k : Option Int) :
    countTask d t k = d k + contribTask t k := by
  unfold countTask contribTask
  cases h : taskRunInfo t with
  | none => simp
  | some info => exact dayFold_count info.1 info.2.1 d k

lemma foldl_countTask_char (tasks : List RawTask) :
    ∀ (d : Option Int → Nat) (k : Option Int),
      (tasks.foldl countTask d) k = d k + (tasks.map (fun t => contribTask t k)).sum := by
  induction tasks with
  | nil => intro d k; simp
  | cons t ts ih =>
    intro d k
    simp only [List.foldl_cons, List.map_cons, List.sum_cons]
    rw [ih, countTask_char]
    omega

lemma hourlyCounts_eq_sum (tasks : List RawTask) (k : Option Int) :
    hourlyCounts tasks k = (tasks.map (fun t => contribTask t k)).sum := by
  rw [hourlyCounts, foldl_countTask_char]
  simp [emptyDist]

lemma sum_countOccOpt (hs : List (Option Int))
    (hin : ∀ h ∈ hs, ∃ n : Nat, h = some (n : Int) ∧ n < 24) :
    (∑ n ∈ Finset.range 24, countOccOpt (some (n : Int)) hs) = hs.length := by
  induction hs with
  | nil => simp [countOccOpt]
  | cons x xs ih =>
    have hx := hin x (by simp)
    obtain ⟨n0, hx0, hn0⟩ := hx
    have hxs : ∀ h ∈ xs, ∃ n : Nat, h = some (n : Int) ∧ n < 24 := by
      intro h hmem
      exact hin h (by simp [hmem])
    simp only [countOccOpt_cons, Finset.sum_add_distrib, ih hxs, List.length_cons]
    subst hx0
    have hsum : ∀ n ∈ Finset.range 24,
        (if (some (n0 : Int) : Option Int) = some (n : Int) then 1 else 0) =
          if n = n0 then 1 else 0 := by
      intro n _
      by_cases h : n = n0
      · subst h; simp
      · have hne : ((n0 : Int) ≠ (n : Int)) := by
          intro hh
          exact h (by exact_mod_cast hh.symm)
        simp [h, hne]
    rw [Finset.sum_congr rfl hsum, Finset.sum_ite_eq' (Finset.range 24) n0 (fun _ => 1)]
    simp [Finset.mem_range.mpr hn0]
    omega

lemma countOccInt_cons (k x : Int) (xs : List Int) :
    countOccInt k (x :: xs) = (if x = k then 1 else 0) + countOccInt k xs := by
  by_cases h : x = k <;> simp [countOccInt, h] <;> omega

lemma addFold_char (rhs : List Int) (w : Int) :
    ∀ (d : Int → Int) (h : Int),
      (rhs.foldl (addStep w) d) h = d h + w * (countOccInt h rhs : Int) := by
  induction rhs with
  | nil => intro d h; simp [countOccInt]
  | cons x xs ih =>
    intro d h
    simp only [List.foldl_cons]
    rw [ih, countOccInt_cons]
    by_cases hk : x = h
    · subst hk
      simp [addStep, updateAt]
      push_cast
      ring
    · have hk2 : ¬(h = x) := fun hh => hk hh.symm
      simp [addStep, updateAt, hk, hk2]

lemma subFold_char (rhs : List Int) (w : Int) (hw : 0 ≤ w) :
    ∀ (d : Int → Int), (∀ h, w * (countOccInt h rhs : Int) ≤ d h) →
      ∀ h, (rhs.foldl (subStep w) d) h = d h - w * (countOccInt h rhs : Int) := by
  induction rhs with
  | nil => intro d hbound h; simp [countOccInt]
  | cons x xs ih =>
    intro d hbound h
    have hccx : countOccInt x (x :: xs) = 1 + countOccInt x xs := by
      rw [countOccInt_cons]
      simp
    have hwx : w ≤ d x := by
      have hb := hbound x
      rw [hccx] at hb
      push_cast at hb
      nlinarith [Int.natCast_nonneg (countOccInt x xs)]
    have hnoclamp : ¬(d x - w < 0) := by omega
    have hd2 : (x :: xs).foldl (subStep w) d = xs.foldl (subStep w) (updateAt d x (d x - w)) := by
      simp [List.foldl_cons, subStep, hnoclamp]
    rw [hd2]
    have hbound2 : ∀ h2, w * (countOccInt h2 xs : Int) ≤ (updateAt d x (d x - w)) h2 := by
      intro h2
      by_cases hx : h2 = x
      · subst hx
        have hcc : countOccInt h2 (h2 :: xs) = 1 + countOccInt h2 xs := by
          rw [countOccInt_cons]
          simp
        have hb := hbound h2
        rw [hcc] at hb
        push_cast at hb
        have hexp : w * ((1 : Int) + (countOccInt h2 xs : Int)) =
            w + w * (countOccInt h2 xs : Int) := by
          ring
        rw [hexp] at hb
        simp only [updateAt, if_pos rfl]
        omega
      · have hx2 : ¬(x = h2) := fun hh => hx hh.symm
        have hcc : countOccInt h2 (x :: xs) = countOccInt h2 xs := by
          rw [countOccInt_cons]
          simp [hx2]
        have hb := hbound h2
        rw [hcc] at hb
        simp only [updateAt, if_neg hx]
        exact hb
    rw [ih (updateAt d x (d x - w)) hbound2 h]
    by_cases hx : h = x
    · subst hx
      have hcc : countOccInt h (h :: xs) = 1 + countOccInt h xs := by
        rw [countOccInt_cons]
        simp
      rw [hcc]
      push_cast
      simp only [updateAt, if_pos rfl, ite_true]
      ring
    · have hx2 : ¬(x = h) := fun hh => hx hh.symm
      have hcc : countOccInt h (x :: xs) = countOccInt h xs := by
        rw [countOccInt_cons]
        simp [hx2]
      rw [hcc]
      simp only [updateAt, if_neg hx]

lemma computeTaskDays_nonneg (s : ScheduleConfig) : 0 ≤ computeTaskDays s := by
  cases hf : s.frequency <;> simp [computeTaskDays, hf] <;> split <;> omega

lemma applyEdit_char (it : BatchPlanItem) (d : Int → Int) (hw : 0 ≤ it.taskDays)
    (hbound : ∀ h, it.taskDays * (countOccInt h it.runHours : Int) ≤ d h) (h : Int) :
    applyEdit d it h = d h - it.taskDays * (countOccInt h it.runHours : Int) +
      computeTaskDays it.newSchedule * (countOccInt h it.newRunHours : Int) := by
  unfold applyEdit
  rw [addFold_char, subFold_char it.runHours it.taskDays hw d hbound h]

lemma proposed_char (items : List BatchPlanItem) :
    ∀ base : Int → Int, (∀ it ∈ items, 0 ≤ it.taskDays) →
      (∀ h, totalSubtracted items h ≤ base h) →
      ∀ h, proposedDistribution base items h =
        base h - totalSubtracted items h + totalAdded items h := by
  induction items with
  | nil =>
    intro base hnn hbound h
    simp [proposedDistribution, totalSubtracted, totalAdded]
  | cons it rest ih =>
    intro base hnn hbound h
    have hwit : 0 ≤ it.taskDays := hnn it (by simp)
    have hrestNonneg : ∀ h2 : Int, 0 ≤ totalSubtracted rest h2 := by
      intro h2
      apply List.sum_nonneg
      intro x hx
      simp only [List.mem_map] at hx
      obtain ⟨it2, hm, hxeq⟩ := hx
      subst hxeq
      exact mul_nonneg (hnn it2 (by simp [hm])) (Int.natCast_nonneg _)
    have hsub_cons : ∀ h2, totalSubtracted (it :: rest) h2 =
        it.taskDays * (countOccInt h2 it.runHours : Int) + totalSubtracted rest h2 := by
      intro h2
      simp [totalSubtracted]
    have hadd_cons : ∀ h2, totalAdded (it :: rest) h2 =
        computeTaskDays it.newSchedule * (countOccInt h2 it.newRunHours : Int) +
          totalAdded rest h2 := by
      intro h2
      simp [totalAdded]
    have hsubhead : ∀ h2, it.taskDays * (countOccInt h2 it.runHours : Int) ≤ base h2 := by
      intro h2
      have hb := hbound h2
      rw [hsub_cons h2] at hb
      have := hrestNonneg h2
      omega
    have hd1 := applyEdit_char it base hwit hsubhead
    have haddNonneg : ∀ h2 : Int,
        0 ≤ computeTaskDays it.newSchedule * (countOccInt h2 it.newRunHours : Int) :=
      fun h2 => mul_nonneg (computeTaskDays_nonneg _) (Int.natCast_nonneg _)
    have hboundrest : ∀ h2, totalSubtracted rest h2 ≤ (applyEdit base it) h2 := by
      intro h2
      rw [hd1 h2]
      have hb := hbound h2
      rw [hsub_cons h2] at hb
      have := haddNonneg h2
      omega
    have hrest := ih (applyEdit base it) (fun it2 hm => hnn it2 (by simp [hm])) hboundrest h
    have hfold : proposedDistribution base (it :: rest) =
        proposedDistribution (applyEdit base it) rest := by
      simp [proposedDistribution]
    rw [hfold, hrest, hd1 h, hsub_cons h, hadd_cons h]
    ring

/-! ## Claim theorems -/

/-- Claim C1, counterexample: the proposed distribution of useBatchImpact
is not invariant under permutation of the edit list.  On the all-zero
baseline, the two edits that swap a seven-day task between hours 8 and 2
give hour 8 the count 7 in one order and 0 in the other, because the
subtraction of the first edit clamps at zero before the second edit adds. -/
theorem batchImpact_order_dependent :
    ([editA, editB] : List BatchPlanItem).Perm [editB, editA] ∧
    proposedDistribution (fun _ => 0) [editA, editB] 8 = 7 ∧
    proposedDistribution (fun _ => 0) [editB, editA] 8 = 0 ∧
    proposedDistribution (fun _ => 0) [editA, editB] 8 ≠
      proposedDistribution (fun _ => 0) [editB, editA] 8 :=
  ⟨List.Perm.swap editB editA [], by decide, by decide, by decide⟩

/-- Claim C1, amended: the proposed distribution computed by
useBatchImpact is invariant under permutation of the edit list provided
no subtraction clamps at zero — in particular whenever every edit weight
is nonnegative and, at each hour, the baseline count is at least the
total old weight subtracted there.  With clamping the result is order
dependent (see the counterexample). -/
theorem batchImpact_perm_invariant_without_clamping :
    ∀ (l1 l2 : List BatchPlanItem) (base : Int → Int),
      l1.Perm l2 → (∀ it ∈ l1, 0 ≤ it.taskDays) →
      (∀ h, totalSubtracted l1 h ≤ base h) →
      ∀ h, proposedDistribution base l1 h = proposedDistribution base l2 h := by
  intro l1 l2 base hp hnn hbound h
  have hnn2 : ∀ it ∈ l2, 0 ≤ it.taskDays := fun it hm => hnn it (hp.mem_iff.mpr hm)
  have hsub_eq : ∀ h2, totalSubtracted l1 h2 = totalSubtracted l2 h2 := by
    intro h2
    exact List.Perm.sum_eq (hp.map _)
  have hadd_eq : ∀ h2, totalAdded l1 h2 = totalAdded l2 h2 := by
    intro h2
    exact List.Perm.sum_eq (hp.map _)
  rw [proposed_char l1 base hnn hbound h,
    proposed_char l2 base hnn2 (fun h2 => hsub_eq h2 ▸ hbound h2) h,
    hsub_eq, hadd_eq]

/-- Claim C1, witness: on a baseline of 100 everywhere the two swap edits
commute. -/
theorem batchImpact_perm_invariant_witness :
    proposedDistribution (fun _ => 100) [editA, editB] 8 =
      proposedDistribution (fun _ => 100) [editB, editA] 8 := by
  have hbound : ∀ h : Int, totalSubtracted [editA, editB] h ≤ (fun _ => (100 : Int)) h := by
    intro h
    have c1 : countOccInt h [(8 : Int)] ≤ 1 := List.length_filter_le _ _
    have c2 : countOccInt h [(2 : Int)] ≤ 1 := List.length_filter_le _ _
    simp [totalSubtracted, editA, editB]
    omega
  exact batchImpact_perm_invariant_without_clamping [editA, editB] [editB, editA]
    (fun _ => 100) (List.Perm.swap editB editA []) (by decide) hbound 8

/-- Claim C2, counterexample: for startTime 22:00, endTime 02:00 and a
2-hour interval, the analyzer function expandHourlyRunHours returns the
empty list, not the set 0, 2, 22: its minute loop runs only while
currentMinutes is at most endMinutes, which is false immediately when the
window crosses midnight, so hour 22 is not in the result. -/
theorem expandHourlyRunHours_wrap_empty :
    expandHourlyRunHours "22:00" (some "02:00") [twoHourItem] = [] ∧
    some (22 : Int) ∉ expandHourlyRunHours "22:00" (some "02:00") [twoHourItem] := by
  have e1 : parseIntJS ((splitColon "22:00")[0]?.getD "") = some 22 := by decide
  have e2 : parseIntJS ((splitColon "22:00")[1]?.getD "") = some 0 := by decide
  have e3 : parseIntJS ((splitColon "02:00")[0]?.getD "") = some 2 := by decide
  have e4 : parseIntJS ((splitColon "02:00")[1]?.getD "") = some 0 := by decide
  have e5 : extractHourInterval [twoHourItem] = 2 := by decide
  have hmain : expandHourlyRunHours "22:00" (some "02:00") [twoHourItem] = [] := by
    simp +decide [expandHourlyRunHours, e1, e2, e3, e4, e5]
    norm_num [expandLoopWrapEmpty, sortedDedup]
  exact ⟨hmain, by rw [hmain]; simp⟩

/-- Claim C2, amended: the midnight wrap lives only in the shared utility
computeRunHours, which for the 22:00 to 02:00 every-2-hours Daily
schedule returns the set 22, 0, 2 by walking hours up to 23 and then
restarting the stride at hour 0 (the minute phase is not carried across
midnight); the analyzer function expandHourlyRunHours does not wrap and
returns the empty list on that window; in all cases outside the Hourly
window and Daily sub-day-with-end branches, computeRunHours returns the
singleton parsed start hour. -/
theorem runHours_wrap_amended :
    computeRunHours wrapDailySchedule = [some 22, some 0, some 2] ∧
    expandHourlyRunHours "22:00" (some "02:00") [twoHourItem] = [] ∧
    (∀ s : ScheduleConfig, hourlyWindowCond s = false → dailySubdayCond s = false →
      computeRunHours s = [parseTimeHour s.startTime]) := by
  refine ⟨?_, ?_, ?_⟩
  · have f1 : parseTimeHour wrapDailySchedule.startTime = some 22 := by decide
    have f2 : parseTimeHour (wrapDailySchedule.endTime.getD "") = some 2 := by decide
    have f3 : wrapDailySchedule.intervalHours.getD 0 = 2 := by decide
    simp +decide [computeRunHours, dailyWindowHours, f1, f2, f3, stepLtWrap, stepLeWrap]
  · have e1 : parseIntJS ((splitColon "22:00")[0]?.getD "") = some 22 := by decide
    have e2 : parseIntJS ((splitColon "22:00")[1]?.getD "") = some 0 := by decide
    have e3 : parseIntJS ((splitColon "02:00")[0]?.getD "") = some 2 := by decide
    have e4 : parseIntJS ((splitColon "02:00")[1]?.getD "") = some 0 := by decide
    have e5 : extractHourInterval [twoHourItem] = 2 := by decide
    simp +decide [expandHourlyRunHours, e1, e2, e3, e4, e5]
    norm_num [expandLoopWrapEmpty, sortedDedup]
  · intro s h1 h2
    simp [computeRunHours, h1, h2]

/-- Claim C2, witness: a Weekly schedule falls in neither window branch
and yields its singleton start hour. -/
theorem runHours_wrap_amended_witness :
    hourlyWindowCond weeklyLegalExample = false ∧
    dailySubdayCond weeklyLegalExample = false ∧
    computeRunHours weeklyLegalExample = [parseTimeHour weeklyLegalExample.startTime] :=
  ⟨by decide, by decide,
    runHours_wrap_amended.2.2 weeklyLegalExample (by decide) (by decide)⟩

/-- Claim C3, counterexample: the serializer and the Validator disagree
in both directions on the serializer input type.  The Hourly schedule
with startTime 08:30 and endTime 22:00 is accepted by
scheduleConfigSchema, yet buildScheduleXml throws a minute-alignment
error on it; conversely, the Daily schedule carrying the week-day string
Mon is rejected by the zod week-day enum, yet buildScheduleXml
serializes it without failure.  So serialization does not fail exactly
when the Validator rejects. -/
theorem serializer_validator_disagree :
    scheduleAcceptsRaw hourlyMinuteMismatchRaw = true ∧
    serializerOkRaw hourlyMinuteMismatchRaw = false ∧
    scheduleAcceptsRaw dailyMonAbbrevRaw = false ∧
    serializerOkRaw dailyMonAbbrevRaw = true := by
  decide

/-- A valid week-day name is nonempty (shared helper for claim C3). -/
lemma mem_validWeekdayNames_ne_empty {w : String} (h : w ∈ validWeekdayNames) : w ≠ "" := by
  simp [validWeekdayNames] at h
  rcases h with rfl | rfl | rfl | rfl | rfl | rfl | rfl <;> decide

/-- Under integrality of the numeric entries, the zod month-day check
passes exactly when the serializer range loop finds no out-of-range day
(shared helper for claim C3). -/
lemma monthlyAllIffNoBadRaw (md : List RawMonthDay)
    (hint : (md.all fun d => match d with
      | RawMonthDay.num q => decide (q.den = 1)
      | RawMonthDay.lastDay => true) = true) :
    ((md.all fun d => match d with
      | RawMonthDay.num q => decide (q.den = 1) && decide (1 ≤ q) && decide (q ≤ 31)
      | RawMonthDay.lastDay => true) = true ↔
    ¬ ∃ x ∈ md, (match x with
      | RawMonthDay.num q => decide (q < 1) || decide (31 < q)
      | RawMonthDay.lastDay => false) = true) := by
  rw [List.all_eq_true] at hint ⊢
  constructor
  · rintro hall ⟨x, hmem, hbad⟩
    have hx := hall x hmem
    cases x with
    | lastDay => simp at hbad
    | num q =>
      simp at hx hbad
      rcases hbad with hb | hb
      · linarith [hx.1.2]
      · linarith [hx.2]
  · intro hn x hmem
    cases x with
    | lastDay => rfl
    | num q =>
      have hdq := hint (RawMonthDay.num q) hmem
      simp at hdq ⊢
      refine ⟨⟨hdq, ?_⟩, ?_⟩
      · by_contra hlt
        exact hn ⟨RawMonthDay.num q, hmem, by simp; exact Or.inl (lt_of_not_le hlt)⟩
      · by_contra hlt
        exact hn ⟨RawMonthDay.num q, hmem, by simp; exact Or.inr (lt_of_not_le hlt)⟩

/-- The serializer fails exactly when the zod schema rejects, on the
canonical raw domain (shared helper for the amended claim C3). -/
lemma serializerOkRaw_eq_acceptsRaw_of_canonical :
    ∀ s : RawScheduleConfig, canonicalRawB s = true →
      serializerOkRaw s = scheduleAcceptsRaw s := by
  rintro ⟨freq, st, et, iv, wd, md, mo, mw⟩ hc
  simp only [canonicalRawB, Bool.and_eq_true] at hc
  obtain ⟨⟨⟨⟨⟨⟨hA, hB⟩, hC⟩, hD⟩, hE⟩, hF⟩, hG⟩ := hc
  cases freq
  case Hourly =>
    simp +decide at hD
    obtain ⟨hmo, hmw⟩ := hD
    subst hmo hmw
    cases et with
    | none =>
      by_cases hiv : iv = some 1 <;>
        simp [serializerOkRaw, buildScheduleXmlRaw, validateScheduleRaw, scheduleAcceptsRaw,
          strTruthy, hiv, wf_ne_empty hA]
    | some e =>
      simp only [Bool.and_eq_true, decide_eq_true_eq] at hB
      obtain ⟨he, hmin⟩ := hB
      by_cases hiv : iv = some 1 <;>
        simp [serializerOkRaw, buildScheduleXmlRaw, validateScheduleRaw, scheduleAcceptsRaw,
          strTruthy, minuteAlignmentOk, hiv, wf_ne_empty hA, wf_ne_empty he, hA, he, hmin, hE]
  case Daily =>
    simp +decide at hD
    obtain ⟨hmo, hmw⟩ := hD
    subst hmo hmw
    cases et with
    | none =>
      rcases iv with _ | k
      · simp [serializerOkRaw, buildScheduleXmlRaw, validateScheduleRaw, scheduleAcceptsRaw,
          strTruthy, intervalIn, endTimeNullableOk, wf_ne_empty hA, hA, hE]
      · by_cases hbig : k ∈ ([2, 4, 6, 8, 12, 24] : List Int) <;>
          by_cases hsub : k ∈ ([2, 4, 6, 8, 12] : List Int) <;>
          simp [serializerOkRaw, buildScheduleXmlRaw, validateScheduleRaw, scheduleAcceptsRaw,
            strTruthy, intervalIn, endTimeNullableOk, wf_ne_empty hA, hA, hE, hbig, hsub]
    | some e =>
      simp only [Bool.and_eq_true, decide_eq_true_eq] at hB
      obtain ⟨he, hmin⟩ := hB
      rcases iv with _ | k
      · simp [serializerOkRaw, buildScheduleXmlRaw, validateScheduleRaw, scheduleAcceptsRaw,
          strTruthy, intervalIn, endTimeNullableOk, wf_ne_empty hA, wf_ne_empty he, hA, he, hE]
      · by_cases hbig : k ∈ ([2, 4, 6, 8, 12, 24] : List Int) <;>
          by_cases hsub : k ∈ ([2, 4, 6, 8, 12] : List Int) <;>
          simp [serializerOkRaw, buildScheduleXmlRaw, validateScheduleRaw, scheduleAcceptsRaw,
            strTruthy, minuteAlignmentOk, intervalIn, endTimeNullableOk, wf_ne_empty hA,
            wf_ne_empty he, hA, he, hmin, hE, hbig, hsub]
  case Weekly =>
    simp +decide at hC hD
    obtain ⟨het, hiv⟩ := hC
    obtain ⟨hmo, hmw⟩ := hD
    subst het hmo hmw
    by_cases h0 : wd.length = 0
    · simp [serializerOkRaw, buildScheduleXmlRaw, validateScheduleRaw, scheduleAcceptsRaw, h0,
        hA, hE, wf_ne_empty hA]
    · by_cases h7 : wd.length > 7
      · simp [serializerOkRaw, buildScheduleXmlRaw, validateScheduleRaw, scheduleAcceptsRaw,
          buildWeeklyIntervalsRaw, h0, h7, hA, hE, wf_ne_empty hA]
      · rcases hiv with hiv | hiv <;>
          simp [serializerOkRaw, buildScheduleXmlRaw, validateScheduleRaw, scheduleAcceptsRaw,
            buildWeeklyIntervalsRaw, h0, h7, hA, hE, hiv, wf_ne_empty hA] <;>
          omega
  case Monthly =>
    simp +decide at hC
    obtain ⟨het, hiv⟩ := hC
    subst het
    have hmdIff := monthlyAllIffNoBadRaw md hG
    cases mw with
    | none =>
      cases mo with
      | none =>
        by_cases hmd : md.length > 0
        · by_cases hbad : ∃ x ∈ md, (match x with
              | RawMonthDay.num q => decide (q < 1) || decide (31 < q)
              | RawMonthDay.lastDay => false) = true
          · have hallf : ¬((md.all fun d => match d with
                | RawMonthDay.num q => decide (q.den = 1) && decide (1 ≤ q) && decide (q ≤ 31)
                | RawMonthDay.lastDay => true) = true) :=
              fun h => hmdIff.mp h hbad
            rw [Bool.not_eq_true] at hallf
            simp [serializerOkRaw, buildScheduleXmlRaw, validateScheduleRaw, scheduleAcceptsRaw,
              hmd, hA, hE, wf_ne_empty hA, hbad, hallf]
          · have hall := hmdIff.mpr hbad
            rcases hiv with hiv | hiv <;>
              simp [serializerOkRaw, buildScheduleXmlRaw, validateScheduleRaw, scheduleAcceptsRaw,
                buildMonthlyIntervalsRaw, strTruthy, hmd, hA, hE, hiv, wf_ne_empty hA, hbad, hall]
        · have hmdnil : md = [] := by
            cases md with
            | nil => rfl
            | cons a l => simp at hmd
          subst hmdnil
          rcases hiv with hiv | hiv <;>
            simp [serializerOkRaw, buildScheduleXmlRaw, validateScheduleRaw, scheduleAcceptsRaw,
              buildMonthlyIntervalsRaw, strTruthy, hA, hE, hiv, wf_ne_empty hA]
      | some o =>
        by_cases hmd : md.length > 0
        · by_cases hbad : ∃ x ∈ md, (match x with
              | RawMonthDay.num q => decide (q < 1) || decide (31 < q)
              | RawMonthDay.lastDay => false) = true
          · have hallf : ¬((md.all fun d => match d with
                | RawMonthDay.num q => decide (q.den = 1) && decide (1 ≤ q) && decide (q ≤ 31)
                | RawMonthDay.lastDay => true) = true) :=
              fun h => hmdIff.mp h hbad
            rw [Bool.not_eq_true] at hallf
            simp [serializerOkRaw, buildScheduleXmlRaw, validateScheduleRaw, scheduleAcceptsRaw,
              strTruthy, hmd, hA, hE, wf_ne_empty hA, hbad, hallf]
          · have hall := hmdIff.mpr hbad
            rcases hiv with hiv | hiv <;>
              simp [serializerOkRaw, buildScheduleXmlRaw, validateScheduleRaw, scheduleAcceptsRaw,
                buildMonthlyIntervalsRaw, strTruthy, hmd, hA, hE, hiv, wf_ne_empty hA, hbad, hall]
        · have hmdnil : md = [] := by
            cases md with
            | nil => rfl
            | cons a l => simp at hmd
          subst hmdnil
          rcases hiv with hiv | hiv <;>
            simp [serializerOkRaw, buildScheduleXmlRaw, validateScheduleRaw, scheduleAcceptsRaw,
              buildMonthlyIntervalsRaw, strTruthy, hA, hE, hiv, wf_ne_empty hA]
    | some w =>
      simp only [decide_eq_true_eq] at hF
      have hwne : w ≠ "" := mem_validWeekdayNames_ne_empty hF
      cases mo with
      | none =>
        by_cases hmd : md.length > 0
        · by_cases hbad : ∃ x ∈ md, (match x with
              | RawMonthDay.num q => decide (q < 1) || decide (31 < q)
              | RawMonthDay.lastDay => false) = true
          · have hallf : ¬((md.all fun d => match d with
                | RawMonthDay.num q => decide (q.den = 1) && decide (1 ≤ q) && decide (q ≤ 31)
                | RawMonthDay.lastDay => true) = true) :=
              fun h => hmdIff.mp h hbad
            rw [Bool.not_eq_true] at hallf
            simp [serializerOkRaw, buildScheduleXmlRaw, validateScheduleRaw, scheduleAcceptsRaw,
              strTruthy, hmd, hA, hE, hF, wf_ne_empty hA, hbad, hallf]
          · have hall := hmdIff.mpr hbad
            rcases hiv with hiv | hiv <;>
              simp [serializerOkRaw, buildScheduleXmlRaw, validateScheduleRaw, scheduleAcceptsRaw,
                buildMonthlyIntervalsRaw, strTruthy, hmd, hA, hE, hF, hiv, wf_ne_empty hA,
                hbad, hall]
        · have hmdnil : md = [] := by
            cases md with
            | nil => rfl
            | cons a l => simp at hmd
          subst hmdnil
          rcases hiv with hiv | hiv <;>
            simp [serializerOkRaw, buildScheduleXmlRaw, validateScheduleRaw, scheduleAcceptsRaw,
              buildMonthlyIntervalsRaw, strTruthy, hA, hE, hF, hiv, wf_ne_empty hA]
      | some o =>
        by_cases hmd : md.length > 0
        · simp [serializerOkRaw, buildScheduleXmlRaw, validateScheduleRaw, scheduleAcceptsRaw,
            strTruthy, hmd, hA, hE, hF, hwne, wf_ne_empty hA]
        · have hmdnil : md = [] := by
            cases md with
            | nil => rfl
            | cons a l => simp at hmd
          subst hmdnil
          rcases hiv with hiv | hiv <;>
            simp [serializerOkRaw, buildScheduleXmlRaw, validateScheduleRaw, scheduleAcceptsRaw,
              buildMonthlyIntervalsRaw, strTruthy, hA, hE, hF, hwne, hiv, wf_ne_empty hA]

/-- Claim C3, amended: the serializer re-implements the rules rather than
delegating to the Validator, and on its own input type (weekDays as raw
strings, monthDays as raw numbers) the two disagree in both directions:
the serializer additionally rejects mismatched start and end minutes,
which the schema accepts, while the schema additionally rejects malformed
time strings, week-day strings outside the seven-name enum, non-integer
month days, and non-null endTime or non-24 intervalHours on Weekly and
Monthly schedules — all serialized without failure.  On the canonical raw
domain — well-formed times, matching minutes where both times are
present, null endTime and intervalHours 24-or-null on Weekly and Monthly,
no stray monthly fields on non-Monthly schedules, valid week-day names
everywhere, and integer month days — buildScheduleXml fails exactly when
scheduleConfigSchema rejects. -/
theorem serializer_matches_validator_on_canonical :
    ∀ s : RawScheduleConfig, canonicalRawB s = true →
      (serializerOkRaw s = false ↔ scheduleAcceptsRaw s = false) := by
  intro s hc
  rw [serializerOkRaw_eq_acceptsRaw_of_canonical s hc]

/-- Claim C3, witness: a canonical raw Weekly schedule on which the
restricted equivalence holds. -/
theorem serializer_matches_validator_witness :
    canonicalRawB weeklyLegalRawExample = true ∧
    (serializerOkRaw weeklyLegalRawExample = false ↔
      scheduleAcceptsRaw weeklyLegalRawExample = false) :=
  ⟨by decide, serializer_matches_validator_on_canonical weeklyLegalRawExample (by decide)⟩

/-- Claim C4, counterexample: scheduleConfigSchema accepts the Daily
schedule with startTime 08:30 and endTime 22:00, although the claim says
the Validator rejects schedules whose start and end minutes differ
(minute alignment is enforced only by the serializer, which throws on
this same value). -/
theorem schema_accepts_minute_mismatch :
    scheduleAccepts dailyMinuteMismatch = true ∧
    serializerOk dailyMinuteMismatch = false := by
  decide

/-- Claim C4, amended: scheduleConfigSchema rejects Hourly with
intervalHours 2, Weekly with zero weekDays, Monthly with both monthDays
and the ordinal-plus-weekday pair populated, and Daily with a sub-day
intervalHours and no endTime, and it accepts the five documented legal
shapes; but it does not reject a Daily schedule whose startTime and
endTime minutes differ — that rule lives only in the serializer. -/
theorem schema_rejections_amended :
    (∀ s : ScheduleConfig, s.frequency = .Hourly → s.intervalHours = some 2 →
      scheduleAccepts s = false) ∧
    (∀ s : ScheduleConfig, s.frequency = .Weekly → s.weekDays = [] →
      scheduleAccepts s = false) ∧
    (∀ s : ScheduleConfig, s.frequency = .Monthly → s.monthDays ≠ [] →
      s.monthlyOrdinal.isSome = true → s.monthlyWeekDay.isSome = true →
      scheduleAccepts s = false) ∧
    (∀ (s : ScheduleConfig) (k : Int), s.frequency = .Daily → s.intervalHours = some k →
      k < 24 → s.endTime = none → scheduleAccepts s = false) ∧
    scheduleAccepts dailyMinuteMismatch = true ∧
    scheduleAccepts hourlyLegalExample = true ∧
    scheduleAccepts dailyLegalExample = true ∧
    scheduleAccepts weeklyLegalExample = true ∧
    scheduleAccepts monthlyOnDayLegalExample = true ∧
    scheduleAccepts monthlyOrdinalLegalExample = true := by
  refine ⟨?_, ?_, ?_, ?_, by decide, by decide, by decide, by decide, by decide, by decide⟩
  · intro s h1 h2
    simp [scheduleAccepts, h1, h2]
  · intro s h1 h2
    simp [scheduleAccepts, h1, h2]
  · intro s h1 h2 h3 h4
    have hlen : 0 < s.monthDays.length := List.length_pos.mpr h2
    simp [scheduleAccepts, h1, h3, h4, hlen, Bool.xor]
  · intro s k h1 h2 hk h3
    by_cases hsub : k ∈ ([2, 4, 6, 8, 12] : List Int)
    · simp [scheduleAccepts, h1, h2, h3, hsub]
    · have hbig : ¬(k ∈ ([2, 4, 6, 8, 12, 24] : List Int)) := by
        simp at hsub ⊢
        omega
      simp [scheduleAccepts, h1, h2, h3, intervalIn, hbig]

/-- Claim C4, witness: the four rejection clauses applied at the four
documented illegal examples. -/
theorem schema_rejections_witness :
    scheduleAccepts hourlyInterval2Example = false ∧
    scheduleAccepts weeklyEmptyExample = false ∧
    scheduleAccepts monthlyBothModesExample = false ∧
    scheduleAccepts dailyNoEndExample = false :=
  ⟨schema_rejections_amended.1 hourlyInterval2Example rfl rfl,
    schema_rejections_amended.2.1 weeklyEmptyExample rfl rfl,
    schema_rejections_amended.2.2.1 monthlyBothModesExample rfl (by decide) rfl rfl,
    schema_rejections_amended.2.2.2.1 dailyNoEndExample 4 rfl rfl (by decide) rfl⟩

/-- Claim C5: in the hourly distribution of analyzeScheduledTasks, a
non-skipped task whose run days have d entries and whose run hours are h
hours inside 0..23 contributes exactly d times h to the total occurrence
count over the 24 hour keys, and the whole distribution is invariant
under permutation of the input task list. -/
theorem analyzer_contribution_and_perm :
    (∀ (t : RawTask) (ts : List RawTask) (days : List Nat) (hours : List (Option Int))
      (lh : Option Int),
      taskRunInfo t = some (days, hours, lh) →
      (∀ h ∈ hours, ∃ n : Nat, h = some (n : Int) ∧ n < 24) →
      totalCount24 (t :: ts) = totalCount24 ts + days.length * hours.length) ∧
    (∀ l1 l2 : List RawTask, l1.Perm l2 → hourlyCounts l1 = hourlyCounts l2) := by
  constructor
  · intro t ts days hours lh hinfo hin
    have hk : ∀ k, hourlyCounts (t :: ts) k = contribTask t k + hourlyCounts ts k := by
      intro k
      rw [hourlyCounts_eq_sum, hourlyCounts_eq_sum]
      simp
    have hc : ∀ n : ℕ, contribTask t (some (n : Int)) =
        days.length * countOccOpt (some (n : Int)) hours := by
      intro n
      simp [contribTask, hinfo]
    unfold totalCount24
    simp only [hk, Finset.sum_add_distrib]
    rw [Finset.sum_congr rfl (fun n _ => hc n), ← Finset.mul_sum,
      sum_countOccOpt hours hin]
    omega
  · intro l1 l2 hp
    funext k
    rw [hourlyCounts_eq_sum, hourlyCounts_eq_sum]
    exact List.Perm.sum_eq (hp.map _)

/-- Claim C5, witness: the once-a-day 08:00 task with all seven days
contributes 7 times 1 to the total, and swapping two tasks leaves the
distribution unchanged. -/
theorem analyzer_contribution_witness :
    totalCount24 [dailyEightTask] =
      totalCount24 [] + ([0, 1, 2, 3, 4, 5, 6] : List Nat).length *
        ([some (8 : Int)] : List (Option Int)).length ∧
    hourlyCounts [dailyEightTask, badStartTask] = hourlyCounts [badStartTask, dailyEightTask] :=
  ⟨analyzer_contribution_and_perm.1 dailyEightTask [] [0, 1, 2, 3, 4, 5, 6] [some 8] (some 8)
      (by decide)
      (by
        intro h hmem
        simp at hmem
        subst hmem
        exact ⟨8, by norm_num, by norm_num⟩),
    analyzer_contribution_and_perm.2 _ _ (List.Perm.swap badStartTask dailyEightTask [])⟩

/-- Claim C6: for a Monthly OnOrdinalWeekday schedule the date-firing
predicate is true exactly when the week-day name matches the target and,
for First..Fifth, floor((day - 1) / 7) + 1 equals the ordinal number, and
for Last, day + 7 exceeds the days in the month.  This holds for
matchesMonthlyScheduleDate in the analyzer and for taskRunsOnDate in the
filters, and in April 2026 — a month whose last day is a Thursday — a
Last-Friday schedule fires on April 24, the Friday of the prior week, and
not on April 17. -/
theorem monthly_ordinal_firing :
    (∀ (day dim : Int) (name w ord : String), w ≠ "" → ord ≠ "" →
      (matchesMonthlyScheduleDate day dim name [⟨some w, none, none, some ord⟩] = true ↔
        (name = w ∧ claimOrdinalProp ord day dim))) ∧
    (∀ (y m d : Nat) (o : MonthlyOrdinal) (w : Weekday),
      1 ≤ y → 1 ≤ m → m ≤ 12 → 1 ≤ d → d ≤ getDaysInMonth y m →
      (taskRunsOnDate (monthlyOrdinalSchedule o w) y m d = true ↔
        (sundayFirstDays.getD (dayOfWeek y m d) .Sunday = w ∧
          claimOrdinalPropW o d (getDaysInMonth y m)))) ∧
    (getDaysInMonth 2026 4 = 30 ∧ dayOfWeek 2026 4 30 = 4 ∧
      taskRunsOnDate (monthlyOrdinalSchedule .Last .Friday) 2026 4 24 = true ∧
      taskRunsOnDate (monthlyOrdinalSchedule .Last .Friday) 2026 4 17 = false) := by
  refine ⟨?_, ?_, by decide⟩
  · intro day dim name w ord hw hord
    simp +decide [matchesMonthlyScheduleDate, itemAttrTruthy, strTruthy, ordinalChainMatches,
      claimOrdinalProp, hw, hord]
    tauto
  · intro y m d o w hy hm hm2 hd hdim
    have hy0 : y ≠ 0 := by omega
    have hm0 : m ≠ 0 := by omega
    have hd0 : d ≠ 0 := by omega
    simp only [taskRunsOnDate, monthlyOrdinalSchedule]
    simp only [hy0, hm0, hd0, decide_eq_true_eq, decide_eq_false_iff_not, List.length_nil]
    by_cases hwd : w = sundayFirstDays.getD (dayOfWeek y m d) .Sunday
    · cases o <;>
        simp [-List.getD_eq_getElem?_getD, claimOrdinalPropW, hwd, eq_comm]
    · have hwd2 : sundayFirstDays.getD (dayOfWeek y m d) .Sunday ≠ w := Ne.symm hwd
      cases o <;>
        simp [-List.getD_eq_getElem?_getD, claimOrdinalPropW, hwd, hwd2]

/-- Claim C6, witness: both equivalences applied on concrete dates: the
analyzer predicate at a Second Monday item on day 12 of a 30-day month,
and the filter predicate at the second Monday of February 2026. -/
theorem monthly_ordinal_firing_witness :
    (matchesMonthlyScheduleDate 12 30 "Monday" [⟨some "Monday", none, none, some "Second"⟩] =
        true ↔ ("Monday" = "Monday" ∧ claimOrdinalProp "Second" 12 30)) ∧
    (taskRunsOnDate (monthlyOrdinalSchedule .Second .Monday) 2026 2 9 = true ↔
      (sundayFirstDays.getD (dayOfWeek 2026 2 9) .Sunday = .Monday ∧
        claimOrdinalPropW .Second 9 (getDaysInMonth 2026 2))) :=
  ⟨monthly_ordinal_firing.1 12 30 "Monday" "Monday" "Second" (by decide) (by decide),
    monthly_ordinal_firing.2.1 2026 2 9 .Second .Monday (by decide) (by decide) (by decide)
      (by decide) (by decide)⟩

/-- Claim C7: a Monthly OnDay schedule whose day set is the singleton
LastDay fires on a February date exactly when the day of month is 29 in a
leap year and 28 otherwise, both through matchesMonthlyScheduleDate fed
with getDaysInMonth and through taskRunsOnDate. -/
theorem monthly_lastday_february :
    (∀ (y : Nat) (d : Int) (name : String),
      (matchesMonthlyScheduleDate d ((getDaysInMonth y 2 : Nat) : Int) name
          [⟨none, none, none, some "LastDay"⟩] = true ↔
        d = if isLeapYear y then 29 else 28)) ∧
    (∀ y d : Nat, 1 ≤ y → 1 ≤ d →
      (taskRunsOnDate monthlyLastDaySchedule y 2 d = true ↔
        d = if isLeapYear y then 29 else 28)) := by
  constructor
  · intro y d name
    have hp : parseIntJS "LastDay" = none := by decide
    simp +decide [matchesMonthlyScheduleDate, itemAttrTruthy, strTruthy, hp, getDaysInMonth]
  · intro y d hy hd
    have hy0 : y ≠ 0 := by omega
    have hd0 : d ≠ 0 := by omega
    simp +decide [taskRunsOnDate, monthlyLastDaySchedule, getDaysInMonth, hy0, hd0]

/-- Claim C7, witness: February 2024 is a leap year and the predicate
fires on day 29; February 2023 fires on day 28. -/
theorem monthly_lastday_february_witness :
    (taskRunsOnDate monthlyLastDaySchedule 2024 2 29 = true ↔
      (29 : Nat) = if isLeapYear 2024 then 29 else 28) ∧
    (taskRunsOnDate monthlyLastDaySchedule 2023 2 28 = true ↔
      (28 : Nat) = if isLeapYear 2023 then 29 else 28) :=
  ⟨monthly_lastday_february.2 2024 29 (by decide) (by decide),
    monthly_lastday_february.2 2023 28 (by decide) (by decide)⟩

/-- Claim C8: on the all-zero 24-hour distribution both health-metric
implementations return exactly loadBalanceScore 100, utilization 0,
peakAvgRatio 0 and the busiest window with label N/A, count 0 and pct 0,
every metric banded green; the total-is-zero early return means no
division is evaluated, and the functions are total (no error is raised)
for any Math.sqrt interpretation. -/
theorem health_zero_distribution_defaults :
    ∀ f : ℚ → ℚ,
      computeEnhancedStats f (fun _ => 0) =
        ⟨⟨100, .green⟩, ⟨"N/A", 0, 0, .green⟩, ⟨0, .green⟩, ⟨0, .green⟩⟩ ∧
      computeHealthMetrics f (fun _ => 0) =
        ⟨⟨100, .green⟩, ⟨"N/A", 0, 0, .green⟩, ⟨0, .green⟩, ⟨0, .green⟩⟩ := by
  intro f
  constructor
  · simp only [computeEnhancedStats]
    split
    · rfl
    · next hne => exact absurd zeroDistTotal hne
  · simp only [computeHealthMetrics]
    split
    · rfl
    · next hne => exact absurd zeroDistTotal hne

/-- Claim C9: the code does not skip a task whose start time is nonempty
but unparseable.  parseScheduleTime returns NaN (never null) for a
nonempty string, so the null comparison in analyzeScheduledTasks never
fires: the task with start XX:00 lands in the task-details list and adds
its seven week-day increments under the NaN hour key of the hourly
distribution, instead of being silently omitted as the claim states. -/
theorem analyzer_includes_unparseable_start :
    (taskDetailsList [badStartTask]).length = 1 ∧
    hourlyCounts [badStartTask] none = 7 ∧
    parseScheduleTime "XX:00" = some none ∧
    (taskDetailsList [⟨"task-none", "Daily", none, none, []⟩]).length = 0 := by
  decide

/-- Claim C10: the three health-metric implementations —
computeEnhancedStats in the analyzer, computeHealthMetrics in the
batch-impact hook and computeHealthFromDistribution in the MCP simulate
tool — return identical HealthMetrics records on every distribution that
assigns a count to each of the 24 hours, for every Math.sqrt
interpretation. -/
theorem health_implementations_agree :
    ∀ (f : ℚ → ℚ) (d : Nat → ℚ),
      computeEnhancedStats f d = computeHealthMetrics f d ∧
      computeHealthMetrics f d = computeHealthFromDistribution f d :=
  fun _ _ => ⟨rfl, rfl⟩
